import Mathlib

/-!
Verification of the NoC placement cost engine of this repository
(`vpr/src/place/noc_place_utils.cpp`).

Modelling conventions, shared by every definition below:

* IEEE-754 `double` values are embedded as exact rationals (`ℚ`); all the
  properties checked here are algebraic identities of the source expressions.
  Where the source can divide by zero, the IEEE result (`1/0.0 = +inf`) is
  folded into the embedding explicitly at the point of use, with a comment.
* Dense ids (`NocTrafficFlowId`, `NocLinkId`, `NocRouterId`, `ClusterBlockId`)
  are embedded as `Nat`.
* The id-indexed `vtr::vector` containers owned by `NocCostHandler` are
  embedded as total functions from ids; `std::vector<NocTrafficFlowId>`
  (`affected_traffic_flows`) is a `List Nat`, and the `std::unordered_set`s
  (`affected_noc_links`, `updated_traffic_flows`, `reverted_traffic_flows`)
  are `List Nat` used purely through membership, with no duplicate insertion.
* The routing collaborator `NocRouting::route_flow` (an external interface,
  spec section 6) is deterministic in the block locations, which do not change
  during any one handler operation; each handler operation therefore receives
  it as an oracle `newRoute : Nat → List Nat` giving the route the collaborator
  would produce for a flow id at the locations current for that operation.
-/

/-- Embeds `t_noc_traffic_flow`: the static attributes of one traffic flow
(`source_router_cluster_id`, `sink_router_cluster_id`, `traffic_flow_bandwidth`,
`max_traffic_flow_latency`, `traffic_flow_priority`; the priority is an `int`
in the source and is embedded as the rational it is promoted to). -/
structure TrafficFlow where
  sourceRouterClusterId : Nat
  sinkRouterClusterId : Nat
  bandwidth : ℚ
  maxLatency : ℚ
  priority : ℚ
deriving DecidableEq

/-- Embeds `NocLink`: a directed NoC edge with its source and sink router ids,
its bandwidth capacity (`get_bandwidth`) and its latency (`get_latency`). -/
structure NocLink where
  sourceRouter : Nat
  sinkRouter : Nat
  bandwidth : ℚ
  latency : ℚ
deriving DecidableEq

/-- Embeds the read-only `NocStorage` topology (`noc_model`): link lookup by id
(`get_single_noc_link`), router latency by id
(`get_single_noc_router(·).get_latency()`), the id range of all links
(`get_noc_links()`), the two detail flags (`get_detailed_link_latency`,
`get_detailed_router_latency`) and the coarse default latencies
(`get_noc_link_latency`, `get_noc_router_latency`). -/
structure NocModel where
  links : Nat → NocLink
  routerLatency : Nat → ℚ
  linkIds : List Nat
  detailedLinkLatency : Bool
  detailedRouterLatency : Bool
  nocLinkLatency : ℚ
  nocRouterLatency : ℚ

/-- Embeds the per-flow cached cost terms stored in `traffic_flow_costs` and
`proposed_traffic_flow_costs` (aggregate bandwidth, latency, latency overrun). -/
structure TrafficFlowCosts where
  aggregateBandwidth : ℚ
  latency : ℚ
  latencyOverrun : ℚ
deriving DecidableEq

/-- Embeds `NocCostTerms`: the four aggregate NoC cost terms. -/
structure NocCostTerms where
  aggregateBandwidth : ℚ
  latency : ℚ
  latencyOverrun : ℚ
  congestion : ℚ
deriving DecidableEq

/-- Modelled from the spec: the sentinel `INVALID_NOC_COST_TERM` declared in
`noc_place_utils.h` (the header is not under `src/`); per spec section 3 a
sentinel "invalid" value marks uninitialised / proposed-but-uncommitted cost
slots. Its concrete value is immaterial to every theorem below. -/
def INVALID_NOC_COST_TERM : ℚ := -1

/-- Modelled from the spec: the pin constant `MAX_INV_NOC_AGGREGATE_BANDWIDTH_COST`
declared in `noc_place_utils.h` (not under `src/`); per spec section 4.6 it is the
positive cap of the aggregate-bandwidth normalisation factor. -/
def MAX_INV_NOC_AGGREGATE_BANDWIDTH_COST : ℚ := 1

/-- Modelled from the spec: the pin constant `MAX_INV_NOC_LATENCY_COST` declared
in `noc_place_utils.h` (not under `src/`); the positive cap of the latency and
latency-overrun normalisation factors. -/
def MAX_INV_NOC_LATENCY_COST : ℚ := 10 ^ 12

/-- Modelled from the spec: the pin constant `MAX_INV_NOC_CONGESTION_COST`
declared in `noc_place_utils.h` (not under `src/`); the positive cap of the
congestion normalisation factor. -/
def MAX_INV_NOC_CONGESTION_COST : ℚ := 10 ^ 3

/-- Embeds `calculate_traffic_flow_aggregate_bandwidth_cost`: priority times
bandwidth times the number of links of the route. -/
def calculate_traffic_flow_aggregate_bandwidth_cost (trafficFlowRoute : List Nat)
    (trafficFlowInfo : TrafficFlow) : ℚ :=
  trafficFlowInfo.priority * trafficFlowInfo.bandwidth * trafficFlowRoute.length

/-- Embeds `calculate_traffic_flow_latency_cost` (returns the pair
`(latency, latency_overrun)`, both already scaled by the flow priority).
The detailed-router branch of the source reads `traffic_flow_route[0]`
unconditionally; for an empty route that access is out of bounds (undefined
behaviour in C++), and this total embedding reads `List.headI`, whose value at
`[]` is the junk link id `0` — the checked variant below makes that branch
`none` instead, and the two agree on every non-empty route. -/
def calculate_traffic_flow_latency_cost (trafficFlowRoute : List Nat)
    (nocModel : NocModel) (trafficFlowInfo : TrafficFlow) : ℚ × ℚ :=
  let nocLinkLatencyComponent : ℚ :=
    if nocModel.detailedLinkLatency then
      ((trafficFlowRoute.map fun l => (nocModel.links l).latency).sum)
    else
      nocModel.nocLinkLatency * trafficFlowRoute.length
  let nocRouterLatencyComponent : ℚ :=
    if nocModel.detailedRouterLatency then
      nocModel.routerLatency ((nocModel.links trafficFlowRoute.headI).sourceRouter)
        + ((trafficFlowRoute.map fun l => nocModel.routerLatency ((nocModel.links l).sinkRouter)).sum)
    else
      nocModel.nocRouterLatency * (trafficFlowRoute.length + 1)
  let latency : ℚ := nocRouterLatencyComponent + nocLinkLatencyComponent
  let latencyOverrun : ℚ := max (latency - trafficFlowInfo.maxLatency) 0
  (trafficFlowInfo.priority * latency, trafficFlowInfo.priority * latencyOverrun)

/-- Partiality-explicit variant of `calculate_traffic_flow_latency_cost`: the
branch of the source that reads `traffic_flow_route[0]` (detailed router
latency) is mapped to `none` on the empty route, where the C++ access is out of
bounds; everywhere else the computation is identical to the total embedding. -/
def calculate_traffic_flow_latency_cost_checked (trafficFlowRoute : List Nat)
    (nocModel : NocModel) (trafficFlowInfo : TrafficFlow) : Option (ℚ × ℚ) :=
  let nocLinkLatencyComponent : ℚ :=
    if nocModel.detailedLinkLatency then
      ((trafficFlowRoute.map fun l => (nocModel.links l).latency).sum)
    else
      nocModel.nocLinkLatency * trafficFlowRoute.length
  let nocRouterLatencyComponent? : Option ℚ :=
    if nocModel.detailedRouterLatency then
      match trafficFlowRoute with
      | [] => none
      | firstNocLinkId :: _ =>
        some (nocModel.routerLatency ((nocModel.links firstNocLinkId).sourceRouter)
          + ((trafficFlowRoute.map fun l => nocModel.routerLatency ((nocModel.links l).sinkRouter)).sum))
    else
      some (nocModel.nocRouterLatency * (trafficFlowRoute.length + 1))
  nocRouterLatencyComponent?.map fun nocRouterLatencyComponent =>
    let latency : ℚ := nocRouterLatencyComponent + nocLinkLatencyComponent
    let latencyOverrun : ℚ := max (latency - trafficFlowInfo.maxLatency) 0
    (trafficFlowInfo.priority * latency, trafficFlowInfo.priority * latencyOverrun)

/-- The local `latency` of `calculate_traffic_flow_latency_cost` before the
final `latency *= priority` scaling: the unweighted route latency (router
latency component plus link latency component). -/
def noc_route_unweighted_latency (trafficFlowRoute : List Nat) (nocModel : NocModel) : ℚ :=
  let nocLinkLatencyComponent : ℚ :=
    if nocModel.detailedLinkLatency then
      ((trafficFlowRoute.map fun l => (nocModel.links l).latency).sum)
    else
      nocModel.nocLinkLatency * trafficFlowRoute.length
  let nocRouterLatencyComponent : ℚ :=
    if nocModel.detailedRouterLatency then
      nocModel.routerLatency ((nocModel.links trafficFlowRoute.headI).sourceRouter)
        + ((trafficFlowRoute.map fun l => nocModel.routerLatency ((nocModel.links l).sinkRouter)).sum)
    else
      nocModel.nocRouterLatency * (trafficFlowRoute.length + 1)
  nocRouterLatencyComponent + nocLinkLatencyComponent

/-- Embeds `NocCostHandler::get_link_congestion_cost`, keyed by link id:
`max(usage - bandwidth, 0) / bandwidth` of the given link against the handler's
bandwidth-usage table. -/
def get_link_congestion_cost (nocModel : NocModel) (linkBandwidthUsages : Nat → ℚ)
    (linkId : Nat) : ℚ :=
  max (linkBandwidthUsages linkId - (nocModel.links linkId).bandwidth) 0
    / (nocModel.links linkId).bandwidth

/-- Embeds the expression `std::min(1 / term, cap)` of
`update_noc_normalization_factors` on doubles: for `term = 0` the IEEE quotient
`1/0.0` is `+inf` and `std::min(+inf, cap) = cap`, so the zero case is folded
into the embedding explicitly; for `term ≠ 0` the quotient is exact. -/
def inv_capped (term cap : ℚ) : ℚ :=
  if term = 0 then cap else min (1 / term) cap

/-- Embeds `NocCostHandler::update_noc_normalization_factors`, mapping the four
cost terms to the four normalisation factors (the source writes them into
`costs.noc_cost_norm_factors`): aggregate bandwidth and latency use the capped
inverse unconditionally; latency overrun and congestion use it only for a
positive term and pin to the cap otherwise. -/
def update_noc_normalization_factors (costTerms : NocCostTerms) : NocCostTerms :=
  { aggregateBandwidth :=
      inv_capped costTerms.aggregateBandwidth MAX_INV_NOC_AGGREGATE_BANDWIDTH_COST
    latency := inv_capped costTerms.latency MAX_INV_NOC_LATENCY_COST
    latencyOverrun :=
      if 0 < costTerms.latencyOverrun then
        min (1 / costTerms.latencyOverrun) MAX_INV_NOC_LATENCY_COST
      else
        MAX_INV_NOC_LATENCY_COST
    congestion :=
      if 0 < costTerms.congestion then
        min (1 / costTerms.congestion) MAX_INV_NOC_CONGESTION_COST
      else
        MAX_INV_NOC_CONGESTION_COST }

/-- Embeds `e_create_move`: the outcome of a proposed move. -/
inductive ECreateMove where
  | valid
  | abort
deriving DecidableEq

/-- The external collaborators of `propose_router_swap`, keyed by the selected
block id. `routerClusters` embeds
`noc_traffic_flows_storage.get_router_clusters_in_netlist()`; `isFixed` embeds
`block_locs[b].is_fixed`; `findToLocUniform` tells whether the generic placer's
`find_to_loc_uniform` finds a compatible destination within `rlim` (external
interface, spec section 4.5); `createMove` embeds the generic `::create_move`;
`floorplanLegal` embeds `floorplan_legal` on the resulting move transaction. -/
structure ProposerEnv where
  routerClusters : List Nat
  isFixed : Nat → Bool
  findToLocUniform : Nat → Bool
  createMove : Nat → ECreateMove
  floorplanLegal : Nat → Bool

/-- Embeds `select_random_router_cluster`: fail (`none`) when the netlist has no
router clusters or when the uniformly drawn cluster is fixed, else return the
drawn cluster. `pick` is the value of `rng.irand(number_of_router_blocks - 1)`,
the uniformly drawn index; the out-parameters `from`/`cluster_from_type` of the
source feed only the collaborators abstracted in `ProposerEnv` and are omitted. -/
def select_random_router_cluster (env : ProposerEnv) (pick : Nat) : Option Nat :=
  if env.routerClusters.isEmpty then
    none
  else
    let bFrom := env.routerClusters.getD pick 0
    if env.isFixed bFrom then none else some bFrom

/-- Embeds `propose_router_swap`: abort when no router cluster can be selected,
when no compatible destination is found, or when the move would violate a
floorplan constraint; otherwise return the `create_move` outcome. -/
def propose_router_swap (env : ProposerEnv) (pick : Nat) : ECreateMove :=
  match select_random_router_cluster env pick with
  | none => ECreateMove.abort
  | some bFrom =>
    if !env.findToLocUniform bFrom then
      ECreateMove.abort
    else
      let createMoveOutcome := env.createMove bFrom
      if !env.floorplanLegal bFrom then
        ECreateMove.abort
      else
        createMoveOutcome

/-- The read-only collaborators a `NocCostHandler` operation consults.
`flows` embeds `noc_traffic_flows_storage.get_single_noc_traffic_flow`;
`assocFlows` embeds `get_traffic_flows_associated_to_router_block`;
`hasFlows` embeds `check_if_cluster_block_has_traffic_flows`;
`trafficFlowIds` embeds `get_all_traffic_flow_id()` (the dense id range);
`newRoute` is the routing collaborator oracle: `route_flow` is deterministic in
the block locations, which are constant during any one handler operation, so
`newRoute f` is the loop-free route it produces for flow `f` at the locations
current for that operation. -/
structure NocContext where
  flows : Nat → TrafficFlow
  assocFlows : Nat → List Nat
  hasFlows : Nat → Bool
  trafficFlowIds : List Nat
  newRoute : Nat → List Nat

/-- The mutable state owned by `NocCostHandler` (spec section 3): committed and
backup routes, the authoritative link bandwidth-usage table, committed and
proposed per-flow cost caches, committed and proposed per-link congestion
caches, and the per-transaction scratch collections `affected_traffic_flows`
(a vector) and `affected_noc_links` (a set, represented as a duplicate-free
list used through membership). -/
@[ext]
structure HandlerState where
  trafficFlowRoutes : Nat → List Nat
  trafficFlowRoutesBackup : Nat → List Nat
  linkBandwidthUsages : Nat → ℚ
  trafficFlowCosts : Nat → TrafficFlowCosts
  proposedTrafficFlowCosts : Nat → TrafficFlowCosts
  linkCongestionCosts : Nat → ℚ
  proposedLinkCongestionCosts : Nat → ℚ
  affectedTrafficFlows : List Nat
  affectedNocLinks : List Nat

/-- Embeds `NocCostHandler::update_traffic_flow_link_usage`: add
`inc_or_dec * traffic_flow_bandwidth` to the usage of every link of the route
(the source parameter `inc_or_dec` is an `int` always passed as `1` or `-1`;
it is embedded as the rational it is promoted to). -/
def update_traffic_flow_link_usage (trafficFlowRoute : List Nat) (incOrDec : ℚ)
    (trafficFlowBandwidth : ℚ) (linkBandwidthUsages : Nat → ℚ) : Nat → ℚ :=
  trafficFlowRoute.foldl
    (fun usages linkInRouteId =>
      Function.update usages linkInRouteId (usages linkInRouteId + incOrDec * trafficFlowBandwidth))
    linkBandwidthUsages

/-- Embeds `NocCostHandler::re_route_traffic_flow`: decrement the bandwidth
usage along the current committed route, swap the committed route into the
backup slot, let the routing collaborator overwrite the committed slot
(`route_traffic_flow`), and increment the usage along the new route. -/
def re_route_traffic_flow (ctx : NocContext) (trafficFlowId : Nat) (s : HandlerState) :
    HandlerState :=
  { s with
    linkBandwidthUsages :=
      update_traffic_flow_link_usage (ctx.newRoute trafficFlowId) 1
        (ctx.flows trafficFlowId).bandwidth
        (update_traffic_flow_link_usage (s.trafficFlowRoutes trafficFlowId) (-1)
          (ctx.flows trafficFlowId).bandwidth s.linkBandwidthUsages)
    trafficFlowRoutes :=
      Function.update
        (Function.update s.trafficFlowRoutes trafficFlowId
          (s.trafficFlowRoutesBackup trafficFlowId))
        trafficFlowId (ctx.newRoute trafficFlowId)
    trafficFlowRoutesBackup :=
      Function.update s.trafficFlowRoutesBackup trafficFlowId
        (s.trafficFlowRoutes trafficFlowId) }

/-- Embeds the insertion `affected_noc_links.insert(unique_links.begin(),
unique_links.end())` into the `unordered_set`: insert each link id not already
present. -/
def insert_new_links (affectedNocLinks : List Nat) (uniqueLinks : List Nat) : List Nat :=
  uniqueLinks.foldl (fun acc l => if l ∈ acc then acc else acc ++ [l]) affectedNocLinks

/-- Embeds the `std::stable_sort(...)` calls of
`find_affected_links_by_flow_reroute` on link ids: ascending insertion sort. -/
def stable_sort_links (links : List Nat) : List Nat :=
  links.foldr
    (fun x sorted =>
      let rec insertSorted (x : Nat) : List Nat → List Nat
        | [] => [x]
        | y :: ys => if x ≤ y then x :: y :: ys else y :: insertSorted x ys
      insertSorted x sorted)
    []

/-- Embeds `std::set_difference` on two ascending-sorted id ranges: the
elements of the first range not matched in the second (multiset semantics). -/
def sorted_link_difference : List Nat → List Nat → List Nat
  | [], _ => []
  | x :: xs, [] => x :: xs
  | x :: xs, y :: ys =>
    if x < y then x :: sorted_link_difference xs (y :: ys)
    else if y < x then sorted_link_difference (x :: xs) ys
    else sorted_link_difference xs ys
termination_by a b => a.length + b.length

/-- Embeds `find_affected_links_by_flow_reroute`: sort both routes and return
the links unique to either one (both one-sided set differences, concatenated). -/
def find_affected_links_by_flow_reroute (prevLinks currLinks : List Nat) : List Nat :=
  sorted_link_difference (stable_sort_links prevLinks) (stable_sort_links currLinks)
    ++ sorted_link_difference (stable_sort_links currLinks) (stable_sort_links prevLinks)

/-- Embeds the per-flow body of
`NocCostHandler::re_route_associated_traffic_flows` (the branch taken when the
flow has not been re-routed yet): remember the previous route, re-route the
flow, collect the links unique to the previous or the new route into
`affected_noc_links`, and append the flow to `affected_traffic_flows`. -/
def reroute_flow_step (ctx : NocContext) (trafficFlowId : Nat) (s : HandlerState) :
    HandlerState :=
  { re_route_traffic_flow ctx trafficFlowId s with
    affectedNocLinks :=
      insert_new_links (re_route_traffic_flow ctx trafficFlowId s).affectedNocLinks
        (find_affected_links_by_flow_reroute (s.trafficFlowRoutes trafficFlowId)
          ((re_route_traffic_flow ctx trafficFlowId s).trafficFlowRoutes trafficFlowId))
    affectedTrafficFlows :=
      (re_route_traffic_flow ctx trafficFlowId s).affectedTrafficFlows ++ [trafficFlowId] }

/-- Embeds `NocCostHandler::re_route_associated_traffic_flows`: walk the flows
associated with the moved router block and process each one not yet in the
per-transaction `updated_traffic_flows` set (threaded as the second component). -/
def re_route_associated_traffic_flows (ctx : NocContext) (movedBlockRouterId : Nat)
    (su : HandlerState × List Nat) : HandlerState × List Nat :=
  (ctx.assocFlows movedBlockRouterId).foldl
    (fun su trafficFlowId =>
      if trafficFlowId ∈ su.2 then su
      else (reroute_flow_step ctx trafficFlowId su.1, trafficFlowId :: su.2))
    su

/-- Embeds the per-flow body of the cost loop of
`find_affected_noc_routers_and_update_noc_costs`: run the aggregate-bandwidth
and latency kernels on the flow's new route, store the results in the proposed
per-flow cost slot, and accumulate `proposed − committed` into the delta terms. -/
def flow_cost_step (ctx : NocContext) (nocModel : NocModel)
    (sd : HandlerState × NocCostTerms) (trafficFlowId : Nat) :
    HandlerState × NocCostTerms :=
  let trafficFlowRoute := sd.1.trafficFlowRoutes trafficFlowId
  let currTrafficFlow := ctx.flows trafficFlowId
  let aggregateBandwidth :=
    calculate_traffic_flow_aggregate_bandwidth_cost trafficFlowRoute currTrafficFlow
  let latencyTerms := calculate_traffic_flow_latency_cost trafficFlowRoute nocModel currTrafficFlow
  ({ sd.1 with
      proposedTrafficFlowCosts :=
        Function.update sd.1.proposedTrafficFlowCosts trafficFlowId
          ⟨aggregateBandwidth, latencyTerms.1, latencyTerms.2⟩ },
   { sd.2 with
      aggregateBandwidth :=
        sd.2.aggregateBandwidth
          + (aggregateBandwidth - (sd.1.trafficFlowCosts trafficFlowId).aggregateBandwidth)
      latency :=
        sd.2.latency + (latencyTerms.1 - (sd.1.trafficFlowCosts trafficFlowId).latency)
      latencyOverrun :=
        sd.2.latencyOverrun
          + (latencyTerms.2 - (sd.1.trafficFlowCosts trafficFlowId).latencyOverrun) })

/-- Embeds the per-link body of the congestion loop of
`find_affected_noc_routers_and_update_noc_costs`: run the congestion kernel on
the current (already mutated) bandwidth usage, store it in the proposed
per-link slot, and accumulate `proposed − committed` into the congestion delta. -/
def link_cost_step (nocModel : NocModel) (sd : HandlerState × NocCostTerms)
    (linkId : Nat) : HandlerState × NocCostTerms :=
  let congestionCost := get_link_congestion_cost nocModel sd.1.linkBandwidthUsages linkId
  ({ sd.1 with
      proposedLinkCongestionCosts :=
        Function.update sd.1.proposedLinkCongestionCosts linkId congestionCost },
   { sd.2 with
      congestion := sd.2.congestion + (congestionCost - sd.1.linkCongestionCosts linkId) })

/-- Embeds `NocCostHandler::find_affected_noc_routers_and_update_noc_costs`
(the evaluate-delta transaction): clear the scratch collections, re-route the
flows associated with every moved block that is a NoC router (deduplicated via
`updated_traffic_flows`), then fill the proposed per-flow costs and the
proposed per-link congestion costs, accumulating the four delta terms from
zero (the source asserts the caller passes zero deltas). -/
def find_affected_noc_routers_and_update_noc_costs (ctx : NocContext)
    (nocModel : NocModel) (movedBlocks : List Nat) (s : HandlerState) :
    HandlerState × NocCostTerms :=
  let cleared : HandlerState := { s with affectedTrafficFlows := [], affectedNocLinks := [] }
  let su :=
    movedBlocks.foldl
      (fun su blk =>
        if ctx.hasFlows blk then re_route_associated_traffic_flows ctx blk su else su)
      (cleared, ([] : List Nat))
  let sd := su.1.affectedTrafficFlows.foldl (flow_cost_step ctx nocModel) (su.1, ⟨0, 0, 0, 0⟩)
  sd.1.affectedNocLinks.foldl (link_cost_step nocModel) sd

/-- Embeds the per-flow body of the first loop of
`NocCostHandler::commit_noc_costs`: copy the proposed per-flow costs into the
committed slot and reset the proposed slot to the invalid sentinel. -/
def commit_flow_step (s : HandlerState) (trafficFlowId : Nat) : HandlerState :=
  { s with
    trafficFlowCosts :=
      Function.update s.trafficFlowCosts trafficFlowId
        (s.proposedTrafficFlowCosts trafficFlowId)
    proposedTrafficFlowCosts :=
      Function.update s.proposedTrafficFlowCosts trafficFlowId
        ⟨INVALID_NOC_COST_TERM, INVALID_NOC_COST_TERM, INVALID_NOC_COST_TERM⟩ }

/-- Embeds the per-link body of the second loop of
`NocCostHandler::commit_noc_costs`: commit the proposed congestion cost and
invalidate the proposed slot. -/
def commit_link_step (s : HandlerState) (linkId : Nat) : HandlerState :=
  { s with
    linkCongestionCosts :=
      Function.update s.linkCongestionCosts linkId (s.proposedLinkCongestionCosts linkId)
    proposedLinkCongestionCosts :=
      Function.update s.proposedLinkCongestionCosts linkId INVALID_NOC_COST_TERM }

/-- Embeds `NocCostHandler::commit_noc_costs`: for every affected flow copy the
proposed per-flow costs into the committed slot and reset the proposed slot to
the invalid sentinel; then the same per affected link for the congestion costs. -/
def commit_noc_costs (s : HandlerState) : HandlerState :=
  let s1 := s.affectedTrafficFlows.foldl commit_flow_step s
  s1.affectedNocLinks.foldl commit_link_step s1

/-- Embeds the per-flow body of `NocCostHandler::revert_noc_traffic_flow_routes`
(the branch taken when the flow has not been reverted yet): decrement the
bandwidth usage along the current (re-routed) committed route, increment it
along the backup route, and swap the committed and backup route slots. -/
def revert_flow_step (ctx : NocContext) (trafficFlowId : Nat) (s : HandlerState) :
    HandlerState :=
  { s with
    linkBandwidthUsages :=
      update_traffic_flow_link_usage (s.trafficFlowRoutesBackup trafficFlowId) 1
        (ctx.flows trafficFlowId).bandwidth
        (update_traffic_flow_link_usage (s.trafficFlowRoutes trafficFlowId) (-1)
          (ctx.flows trafficFlowId).bandwidth s.linkBandwidthUsages)
    trafficFlowRoutes :=
      Function.update s.trafficFlowRoutes trafficFlowId
        (s.trafficFlowRoutesBackup trafficFlowId)
    trafficFlowRoutesBackup :=
      Function.update s.trafficFlowRoutesBackup trafficFlowId
        (s.trafficFlowRoutes trafficFlowId) }

/-- Embeds `NocCostHandler::revert_noc_traffic_flow_routes`: walk the moved
blocks, and for every block that is a NoC router undo the bandwidth updates and
route swap of each associated flow not yet in the per-call
`reverted_traffic_flows` set. -/
def revert_noc_traffic_flow_routes (ctx : NocContext) (movedBlocks : List Nat)
    (s : HandlerState) : HandlerState :=
  (movedBlocks.foldl
      (fun su blk =>
        if ctx.hasFlows blk then
          (ctx.assocFlows blk).foldl
            (fun su trafficFlowId =>
              if trafficFlowId ∈ su.2 then su
              else (revert_flow_step ctx trafficFlowId su.1, trafficFlowId :: su.2))
            su
        else su)
      (s, ([] : List Nat))).1

/-- The route selection local `curr_traffic_flow_route` of
`NocCostHandler::initial_noc_routing` (lines 98-100): adopt the caller-provided
route when seed routes are given (`new_traffic_flow_routes` non-empty),
otherwise the route produced by the routing collaborator
(`route_traffic_flow`). -/
def adopted_route (ctx : NocContext) (newTrafficFlowRoutes : List (List Nat))
    (trafficFlowId : Nat) : List Nat :=
  if newTrafficFlowRoutes.isEmpty then ctx.newRoute trafficFlowId
  else newTrafficFlowRoutes.getD trafficFlowId []

/-- Embeds the per-flow body of `NocCostHandler::initial_noc_routing`: store
the adopted route in the committed-route slot and increment the bandwidth
usage of every link of that route by the flow's bandwidth. -/
def initial_routing_step (ctx : NocContext) (newTrafficFlowRoutes : List (List Nat))
    (s : HandlerState) (trafficFlowId : Nat) : HandlerState :=
  { s with
    trafficFlowRoutes :=
      Function.update s.trafficFlowRoutes trafficFlowId
        (adopted_route ctx newTrafficFlowRoutes trafficFlowId)
    linkBandwidthUsages :=
      update_traffic_flow_link_usage (adopted_route ctx newTrafficFlowRoutes trafficFlowId) 1
        (ctx.flows trafficFlowId).bandwidth s.linkBandwidthUsages }

/-- Embeds `NocCostHandler::initial_noc_routing`: for every traffic flow adopt
the caller-provided route when seed routes are given (`new_traffic_flow_routes`
non-empty) and otherwise the route produced by the routing collaborator
(`route_traffic_flow`), store it in the committed-route slot, and increment the
bandwidth usage of every link of the adopted route by the flow's bandwidth.
The bandwidth-usage table is not zeroed here. -/
def initial_noc_routing (ctx : NocContext) (newTrafficFlowRoutes : List (List Nat))
    (s : HandlerState) : HandlerState :=
  ctx.trafficFlowIds.foldl (initial_routing_step ctx newTrafficFlowRoutes) s

/-- Embeds `NocCostHandler::comp_noc_aggregate_bandwidth_cost`: per-flow body: run the
aggregate-bandwidth kernel on the flow's committed route, cache the result in
the committed per-flow cost slot, and accumulate the total. -/
def comp_aggregate_step (ctx : NocContext) (sc : HandlerState × ℚ)
    (trafficFlowId : Nat) : HandlerState × ℚ :=
  let c :=
    calculate_traffic_flow_aggregate_bandwidth_cost
      (sc.1.trafficFlowRoutes trafficFlowId) (ctx.flows trafficFlowId)
  ({ sc.1 with
      trafficFlowCosts :=
        Function.update sc.1.trafficFlowCosts trafficFlowId
          { sc.1.trafficFlowCosts trafficFlowId with aggregateBandwidth := c } },
   sc.2 + c)

/-- Embeds `NocCostHandler::comp_noc_aggregate_bandwidth_cost`: fold the
per-flow aggregate-bandwidth body over every traffic flow, returning the
updated cache and the total. -/
def comp_noc_aggregate_bandwidth_cost (ctx : NocContext) (s : HandlerState) :
    HandlerState × ℚ :=
  ctx.trafficFlowIds.foldl (comp_aggregate_step ctx) (s, 0)

/-- Embeds `NocCostHandler::comp_noc_latency_cost`: per-flow body: run the
latency kernel on the flow's committed route, cache the two latency terms in
the committed per-flow cost slot, and accumulate the pair of totals. -/
def comp_latency_step (ctx : NocContext) (nocModel : NocModel)
    (sc : HandlerState × ℚ × ℚ) (trafficFlowId : Nat) : HandlerState × ℚ × ℚ :=
  let latencyTerms :=
    calculate_traffic_flow_latency_cost (sc.1.trafficFlowRoutes trafficFlowId) nocModel
      (ctx.flows trafficFlowId)
  ({ sc.1 with
      trafficFlowCosts :=
        Function.update sc.1.trafficFlowCosts trafficFlowId
          { sc.1.trafficFlowCosts trafficFlowId with
            latency := latencyTerms.1
            latencyOverrun := latencyTerms.2 } },
   (sc.2.1 + latencyTerms.1, sc.2.2 + latencyTerms.2))

/-- Embeds `NocCostHandler::comp_noc_latency_cost`: fold the per-flow latency
body over every traffic flow, returning the updated cache and the pair of
totals (latency, latency overrun). -/
def comp_noc_latency_cost (ctx : NocContext) (nocModel : NocModel) (s : HandlerState) :
    HandlerState × ℚ × ℚ :=
  ctx.trafficFlowIds.foldl (comp_latency_step ctx nocModel) (s, 0, 0)

/-- Embeds `NocCostHandler::comp_noc_congestion_cost`: per-link body: run the
congestion kernel on the link, cache the result in the committed per-link
slot, and accumulate the total. -/
def comp_congestion_step (nocModel : NocModel) (sc : HandlerState × ℚ)
    (linkId : Nat) : HandlerState × ℚ :=
  let c := get_link_congestion_cost nocModel sc.1.linkBandwidthUsages linkId
  ({ sc.1 with
      linkCongestionCosts := Function.update sc.1.linkCongestionCosts linkId c },
   sc.2 + c)

/-- Embeds `NocCostHandler::comp_noc_congestion_cost`: fold the per-link
congestion body over every NoC link, returning the updated cache and the
total. -/
def comp_noc_congestion_cost (nocModel : NocModel) (s : HandlerState) :
    HandlerState × ℚ :=
  nocModel.linkIds.foldl (comp_congestion_step nocModel) (s, 0)

/-- Embeds `NocCostHandler::reinitialize_noc_routing`: zero out the bandwidth
usage of every link, route the traffic flows and update the usage
(`initial_noc_routing`), and compute the four aggregate cost terms (written
into `costs.noc_cost_terms` by the source; returned here), caching all
per-flow and per-link committed costs on the way. -/
def reinitialize_noc_routing (ctx : NocContext) (nocModel : NocModel)
    (newTrafficFlowRoutes : List (List Nat)) (s : HandlerState) :
    HandlerState × NocCostTerms :=
  let zeroed : HandlerState := { s with linkBandwidthUsages := fun _ => 0 }
  let routed := initial_noc_routing ctx newTrafficFlowRoutes zeroed
  let aggregate := comp_noc_aggregate_bandwidth_cost ctx routed
  let latency := comp_noc_latency_cost ctx nocModel aggregate.1
  let congestion := comp_noc_congestion_cost nocModel latency.1
  (congestion.1, ⟨aggregate.2, latency.2.1, latency.2.2, congestion.2⟩)

/-- A concrete NoC model with both detail flags off (coarse latency path),
used by witnesses. -/
def sampleCoarseModel : NocModel :=
  { links := fun _ => ⟨0, 1, 10, 2⟩
    routerLatency := fun _ => 1
    linkIds := [0]
    detailedLinkLatency := false
    detailedRouterLatency := false
    nocLinkLatency := 2
    nocRouterLatency := 1 }

/-- A concrete NoC model with detailed link latency on and detailed router
latency off, used by witnesses. -/
def sampleDetailedLinkModel : NocModel :=
  { sampleCoarseModel with detailedLinkLatency := true }

/-- A concrete NoC model with detailed router latency on, used by witnesses. -/
def sampleDetailedRouterModel : NocModel :=
  { sampleCoarseModel with detailedRouterLatency := true }

/-- A concrete traffic flow used by witnesses. -/
def sampleFlow : TrafficFlow := ⟨0, 1, 1, 10, 1⟩

/-- C4: for every non-empty route and flow, with both detail flags off the
latency returned by `calculate_traffic_flow_latency_cost` is the flow priority
times (default link latency times the route length plus default router latency
times the route length plus one); with detailed link latency on (and the
coarse router path) the link component is instead the sum of the actual link
latencies over the route's links. -/
theorem noc_latency_kernel_coarse_and_detailed_link
    (route : List Nat) (model : NocModel) (flow : TrafficFlow) (hroute : route ≠ []) :
    (model.detailedLinkLatency = false → model.detailedRouterLatency = false →
      (calculate_traffic_flow_latency_cost route model flow).1
        = flow.priority
            * (model.nocLinkLatency * route.length
                + model.nocRouterLatency * (route.length + 1)))
    ∧ (model.detailedLinkLatency = true → model.detailedRouterLatency = false →
      (calculate_traffic_flow_latency_cost route model flow).1
        = flow.priority
            * (((route.map fun l => (model.links l).latency).sum)
                + model.nocRouterLatency * (route.length + 1))) := by
  constructor <;> intro h1 h2 <;>
    simp only [calculate_traffic_flow_latency_cost, h1, h2, if_true, if_false,
      Bool.false_eq_true, Bool.true_eq_false] <;> ring

/-- Witness for C4 at the route `[0]`, both model configurations. -/
theorem noc_latency_kernel_coarse_and_detailed_link_witness :
    (calculate_traffic_flow_latency_cost [0] sampleCoarseModel sampleFlow).1
        = sampleFlow.priority
            * (sampleCoarseModel.nocLinkLatency * ([0] : List Nat).length
                + sampleCoarseModel.nocRouterLatency * (([0] : List Nat).length + 1))
    ∧ (calculate_traffic_flow_latency_cost [0] sampleDetailedLinkModel sampleFlow).1
        = sampleFlow.priority
            * (((([0] : List Nat).map fun l => (sampleDetailedLinkModel.links l).latency).sum)
                + sampleDetailedLinkModel.nocRouterLatency * (([0] : List Nat).length + 1)) :=
  ⟨(noc_latency_kernel_coarse_and_detailed_link [0] sampleCoarseModel sampleFlow
      (by decide)).1 rfl rfl,
   (noc_latency_kernel_coarse_and_detailed_link [0] sampleDetailedLinkModel sampleFlow
      (by decide)).2 rfl rfl⟩

/-- C5: for every non-empty route, flow and model, the latency-overrun term of
`calculate_traffic_flow_latency_cost` is the priority times
`max(0, L - max_latency)` where `L` is the unweighted route latency; the
priority factor multiplies the overrun once, outside the `max`, and the latency
term is the priority times the same unweighted `L`. -/
theorem noc_latency_overrun_priority_applied_once
    (route : List Nat) (model : NocModel) (flow : TrafficFlow) (hroute : route ≠ []) :
    (calculate_traffic_flow_latency_cost route model flow).2
        = flow.priority * max (noc_route_unweighted_latency route model - flow.maxLatency) 0
    ∧ (calculate_traffic_flow_latency_cost route model flow).1
        = flow.priority * noc_route_unweighted_latency route model := by
  constructor <;> rfl

/-- Witness for C5 at the route `[0]`. -/
theorem noc_latency_overrun_priority_applied_once_witness :
    (calculate_traffic_flow_latency_cost [0] sampleCoarseModel sampleFlow).2
        = sampleFlow.priority
            * max (noc_route_unweighted_latency [0] sampleCoarseModel - sampleFlow.maxLatency) 0
    ∧ (calculate_traffic_flow_latency_cost [0] sampleCoarseModel sampleFlow).1
        = sampleFlow.priority * noc_route_unweighted_latency [0] sampleCoarseModel :=
  noc_latency_overrun_priority_applied_once [0] sampleCoarseModel sampleFlow (by decide)

/-- Counterexample to C6 as stated: at the cost terms `(-1, 1, 1, 1)` the
aggregate-bandwidth term is ≤ 0, yet `update_noc_normalization_factors` does
not pin its factor to `MAX_INV_NOC_AGGREGATE_BANDWIDTH_COST` — the source has
the `≤ 0` pin branch only for latency overrun and congestion, so the factor is
`min(1/(-1), cap) = -1`. -/
theorem noc_normalization_negative_bandwidth_not_pinned :
    ((-1 : ℚ) ≤ 0)
    ∧ (update_noc_normalization_factors ⟨-1, 1, 1, 1⟩).aggregateBandwidth
        ≠ MAX_INV_NOC_AGGREGATE_BANDWIDTH_COST := by
  constructor
  · norm_num
  · simp only [update_noc_normalization_factors, inv_capped,
      MAX_INV_NOC_AGGREGATE_BANDWIDTH_COST]
    norm_num

/-- C6 as amended: each factor is `min(1/term, MAX_INV_*)` for a positive term;
the `≤ 0` pin to `MAX_INV_*` holds for latency overrun and congestion; for
aggregate bandwidth and latency only a zero term pins (the IEEE quotient
`1/0.0 = +inf` is capped), while a strictly negative term yields `1/term`
itself, not the pin. -/
theorem noc_normalization_factor_cases (c : NocCostTerms) :
    (0 < c.aggregateBandwidth →
      (update_noc_normalization_factors c).aggregateBandwidth
        = min (1 / c.aggregateBandwidth) MAX_INV_NOC_AGGREGATE_BANDWIDTH_COST)
    ∧ (c.aggregateBandwidth = 0 →
      (update_noc_normalization_factors c).aggregateBandwidth
        = MAX_INV_NOC_AGGREGATE_BANDWIDTH_COST)
    ∧ (c.aggregateBandwidth < 0 →
      (update_noc_normalization_factors c).aggregateBandwidth = 1 / c.aggregateBandwidth)
    ∧ (0 < c.latency →
      (update_noc_normalization_factors c).latency
        = min (1 / c.latency) MAX_INV_NOC_LATENCY_COST)
    ∧ (c.latency = 0 →
      (update_noc_normalization_factors c).latency = MAX_INV_NOC_LATENCY_COST)
    ∧ (c.latency < 0 →
      (update_noc_normalization_factors c).latency = 1 / c.latency)
    ∧ (0 < c.latencyOverrun →
      (update_noc_normalization_factors c).latencyOverrun
        = min (1 / c.latencyOverrun) MAX_INV_NOC_LATENCY_COST)
    ∧ (c.latencyOverrun ≤ 0 →
      (update_noc_normalization_factors c).latencyOverrun = MAX_INV_NOC_LATENCY_COST)
    ∧ (0 < c.congestion →
      (update_noc_normalization_factors c).congestion
        = min (1 / c.congestion) MAX_INV_NOC_CONGESTION_COST)
    ∧ (c.congestion ≤ 0 →
      (update_noc_normalization_factors c).congestion = MAX_INV_NOC_CONGESTION_COST) := by
  refine ⟨fun h => ?_, fun h => ?_, fun h => ?_, fun h => ?_, fun h => ?_, fun h => ?_,
    fun h => ?_, fun h => ?_, fun h => ?_, fun h => ?_⟩
  · simp [update_noc_normalization_factors, inv_capped, ne_of_gt h]
  · simp [update_noc_normalization_factors, inv_capped, h]
  · have h2 : (1 : ℚ) / c.aggregateBandwidth ≤ MAX_INV_NOC_AGGREGATE_BANDWIDTH_COST := by
      have h1 : (1 : ℚ) / c.aggregateBandwidth < 0 := one_div_neg.mpr h
      have h3 : (0 : ℚ) ≤ MAX_INV_NOC_AGGREGATE_BANDWIDTH_COST := by
        unfold MAX_INV_NOC_AGGREGATE_BANDWIDTH_COST
        norm_num
      linarith
    simp only [update_noc_normalization_factors, inv_capped]
    rw [if_neg (ne_of_lt h)]
    exact min_eq_left h2
  · simp [update_noc_normalization_factors, inv_capped, ne_of_gt h]
  · simp [update_noc_normalization_factors, inv_capped, h]
  · have h2 : (1 : ℚ) / c.latency ≤ MAX_INV_NOC_LATENCY_COST := by
      have h1 : (1 : ℚ) / c.latency < 0 := one_div_neg.mpr h
      have h3 : (0 : ℚ) ≤ MAX_INV_NOC_LATENCY_COST := by
        unfold MAX_INV_NOC_LATENCY_COST
        norm_num
      linarith
    simp only [update_noc_normalization_factors, inv_capped]
    rw [if_neg (ne_of_lt h)]
    exact min_eq_left h2
  · simp [update_noc_normalization_factors, h]
  · simp [update_noc_normalization_factors, not_lt.mpr h]
  · simp [update_noc_normalization_factors, h]
  · simp [update_noc_normalization_factors, not_lt.mpr h]

/-- Witness for the amended C6 at the cost terms `(-1, 0, -1, 0)`. -/
theorem noc_normalization_factor_cases_witness :
    (update_noc_normalization_factors ⟨-1, 0, -1, 0⟩).aggregateBandwidth = 1 / (-1 : ℚ)
    ∧ (update_noc_normalization_factors ⟨-1, 0, -1, 0⟩).latency = MAX_INV_NOC_LATENCY_COST
    ∧ (update_noc_normalization_factors ⟨-1, 0, -1, 0⟩).latencyOverrun
        = MAX_INV_NOC_LATENCY_COST
    ∧ (update_noc_normalization_factors ⟨-1, 0, -1, 0⟩).congestion
        = MAX_INV_NOC_CONGESTION_COST :=
  ⟨(noc_normalization_factor_cases ⟨-1, 0, -1, 0⟩).2.2.1 (by norm_num),
   (noc_normalization_factor_cases ⟨-1, 0, -1, 0⟩).2.2.2.2.1 rfl,
   (noc_normalization_factor_cases ⟨-1, 0, -1, 0⟩).2.2.2.2.2.2.2.1 (by norm_num),
   (noc_normalization_factor_cases ⟨-1, 0, -1, 0⟩).2.2.2.2.2.2.2.2.2 (by norm_num)⟩

/-- C8: `propose_router_swap` aborts without producing a move when the netlist
has no router clusters, when the uniformly selected router cluster is marked
fixed, when no compatible destination is found by `find_to_loc_uniform`, and
when the resulting configuration would violate a floorplan region constraint. -/
theorem propose_router_swap_abort_cases (env : ProposerEnv) (pick : Nat) :
    (env.routerClusters = [] → propose_router_swap env pick = ECreateMove.abort)
    ∧ (env.isFixed (env.routerClusters.getD pick 0) = true →
        propose_router_swap env pick = ECreateMove.abort)
    ∧ (∀ bFrom, select_random_router_cluster env pick = some bFrom →
        env.findToLocUniform bFrom = false →
        propose_router_swap env pick = ECreateMove.abort)
    ∧ (∀ bFrom, select_random_router_cluster env pick = some bFrom →
        env.floorplanLegal bFrom = false →
        propose_router_swap env pick = ECreateMove.abort) := by
  refine ⟨fun h => ?_, fun h => ?_, fun bFrom hsel h => ?_, fun bFrom hsel h => ?_⟩
  · simp [propose_router_swap, select_random_router_cluster, h]
  · have hsel : select_random_router_cluster env pick = none := by
      unfold select_random_router_cluster
      by_cases hempty : env.routerClusters.isEmpty = true
      · rw [if_pos hempty]
      · rw [if_neg hempty]
        show (if env.isFixed (env.routerClusters.getD pick 0) = true then none
          else some (env.routerClusters.getD pick 0)) = none
        rw [if_pos h]
    simp [propose_router_swap, hsel]
  · simp [propose_router_swap, hsel, h]
  · simp only [propose_router_swap, hsel, h]
    by_cases hfind : env.findToLocUniform bFrom <;> simp [hfind]

/-- A concrete proposer environment with one fixed router cluster, used by the
C8 witness. -/
def sampleFixedEnv : ProposerEnv :=
  { routerClusters := [3]
    isFixed := fun _ => true
    findToLocUniform := fun _ => true
    createMove := fun _ => ECreateMove.valid
    floorplanLegal := fun _ => true }

/-- A concrete proposer environment whose floorplan check fails, used by the
C8 witness. -/
def sampleIllegalFloorplanEnv : ProposerEnv :=
  { sampleFixedEnv with isFixed := fun _ => false, floorplanLegal := fun _ => false }

/-- Witness for C8: the empty netlist, a fixed selected block, and a floorplan
violation each yield ABORT at concrete environments. -/
theorem propose_router_swap_abort_cases_witness :
    propose_router_swap { sampleFixedEnv with routerClusters := [] } 0 = ECreateMove.abort
    ∧ propose_router_swap sampleFixedEnv 0 = ECreateMove.abort
    ∧ propose_router_swap sampleIllegalFloorplanEnv 0 = ECreateMove.abort :=
  ⟨(propose_router_swap_abort_cases { sampleFixedEnv with routerClusters := [] } 0).1 rfl,
   (propose_router_swap_abort_cases sampleFixedEnv 0).2.1 rfl,
   (propose_router_swap_abort_cases sampleIllegalFloorplanEnv 0).2.2.2 3 (by decide) rfl⟩

/-- C9: the latency kernel's unconditional read of `traffic_flow_route[0]` in
the detailed-router branch is in bounds exactly on non-empty routes: on every
non-empty route the partiality-explicit kernel is defined and agrees with the
total embedding, and on the empty route with detailed router latency enabled it
has no defined result. -/
theorem noc_latency_kernel_safe_on_nonempty_routes (model : NocModel) (flow : TrafficFlow) :
    (∀ route : List Nat, route ≠ [] →
      calculate_traffic_flow_latency_cost_checked route model flow
        = some (calculate_traffic_flow_latency_cost route model flow))
    ∧ (model.detailedRouterLatency = true →
      calculate_traffic_flow_latency_cost_checked [] model flow = none) := by
  constructor
  · intro route hroute
    match route, hroute with
    | l :: rs, _ =>
      simp only [calculate_traffic_flow_latency_cost_checked,
        calculate_traffic_flow_latency_cost, List.headI]
      cases hdr : model.detailedRouterLatency <;> simp [hdr]
  · intro hdr
    simp [calculate_traffic_flow_latency_cost_checked, hdr]

/-- Witness for C9 at the route `[0]` and the empty route. -/
theorem noc_latency_kernel_safe_on_nonempty_routes_witness :
    calculate_traffic_flow_latency_cost_checked [0] sampleDetailedRouterModel sampleFlow
        = some (calculate_traffic_flow_latency_cost [0] sampleDetailedRouterModel sampleFlow)
    ∧ calculate_traffic_flow_latency_cost_checked [] sampleDetailedRouterModel sampleFlow
        = none :=
  ⟨(noc_latency_kernel_safe_on_nonempty_routes sampleDetailedRouterModel sampleFlow).1 [0]
      (by decide),
   (noc_latency_kernel_safe_on_nonempty_routes sampleDetailedRouterModel sampleFlow).2 rfl⟩

/-- The per-flow commit loop touches only the two per-flow cost caches: every
other handler field is preserved by the whole fold. -/
lemma commit_flow_fold_preserves (L : List Nat) (s : HandlerState) :
    (L.foldl commit_flow_step s).trafficFlowRoutes = s.trafficFlowRoutes
    ∧ (L.foldl commit_flow_step s).trafficFlowRoutesBackup = s.trafficFlowRoutesBackup
    ∧ (L.foldl commit_flow_step s).linkBandwidthUsages = s.linkBandwidthUsages
    ∧ (L.foldl commit_flow_step s).linkCongestionCosts = s.linkCongestionCosts
    ∧ (L.foldl commit_flow_step s).proposedLinkCongestionCosts = s.proposedLinkCongestionCosts
    ∧ (L.foldl commit_flow_step s).affectedTrafficFlows = s.affectedTrafficFlows
    ∧ (L.foldl commit_flow_step s).affectedNocLinks = s.affectedNocLinks := by
  induction L generalizing s with
  | nil => exact ⟨rfl, rfl, rfl, rfl, rfl, rfl, rfl⟩
  | cons a L ih =>
    simpa only [List.foldl_cons, commit_flow_step] using ih (commit_flow_step s a)

/-- The per-link commit loop touches only the two per-link cost caches. -/
lemma commit_link_fold_preserves (L : List Nat) (s : HandlerState) :
    (L.foldl commit_link_step s).trafficFlowRoutes = s.trafficFlowRoutes
    ∧ (L.foldl commit_link_step s).trafficFlowRoutesBackup = s.trafficFlowRoutesBackup
    ∧ (L.foldl commit_link_step s).linkBandwidthUsages = s.linkBandwidthUsages
    ∧ (L.foldl commit_link_step s).trafficFlowCosts = s.trafficFlowCosts
    ∧ (L.foldl commit_link_step s).proposedTrafficFlowCosts = s.proposedTrafficFlowCosts
    ∧ (L.foldl commit_link_step s).affectedTrafficFlows = s.affectedTrafficFlows
    ∧ (L.foldl commit_link_step s).affectedNocLinks = s.affectedNocLinks := by
  induction L generalizing s with
  | nil => exact ⟨rfl, rfl, rfl, rfl, rfl, rfl, rfl⟩
  | cons a L ih =>
    simpa only [List.foldl_cons, commit_link_step] using ih (commit_link_step s a)

/-- A flow id outside the committed list keeps both of its per-flow cost
entries across the per-flow commit loop. -/
lemma commit_flow_fold_frame_not_mem (L : List Nat) (s : HandlerState) (f : Nat)
    (hf : f ∉ L) :
    (L.foldl commit_flow_step s).trafficFlowCosts f = s.trafficFlowCosts f
    ∧ (L.foldl commit_flow_step s).proposedTrafficFlowCosts f
        = s.proposedTrafficFlowCosts f := by
  induction L generalizing s with
  | nil => exact ⟨rfl, rfl⟩
  | cons a L ih =>
    have hfa : f ≠ a := fun h => hf (h ▸ List.mem_cons_self a L)
    have hfL : f ∉ L := fun h => hf (List.mem_cons_of_mem a h)
    obtain ⟨h1, h2⟩ := ih (commit_flow_step s a) hfL
    simp only [List.foldl_cons]
    rw [h1, h2]
    constructor <;> simp [commit_flow_step, Function.update_noteq hfa]

/-- A link id outside the committed list keeps both of its per-link cost
entries across the per-link commit loop. -/
lemma commit_link_fold_frame_not_mem (L : List Nat) (s : HandlerState) (l : Nat)
    (hl : l ∉ L) :
    (L.foldl commit_link_step s).linkCongestionCosts l = s.linkCongestionCosts l
    ∧ (L.foldl commit_link_step s).proposedLinkCongestionCosts l
        = s.proposedLinkCongestionCosts l := by
  induction L generalizing s with
  | nil => exact ⟨rfl, rfl⟩
  | cons a L ih =>
    have hla : l ≠ a := fun h => hl (h ▸ List.mem_cons_self a L)
    have hlL : l ∉ L := fun h => hl (List.mem_cons_of_mem a h)
    obtain ⟨h1, h2⟩ := ih (commit_link_step s a) hlL
    simp only [List.foldl_cons]
    rw [h1, h2]
    constructor <;> simp [commit_link_step, Function.update_noteq hla]

/-- A flow id of a duplicate-free committed list has its proposed costs copied
into the committed slot and its proposed slot reset to the sentinel by the
per-flow commit loop. -/
lemma commit_flow_fold_mem (L : List Nat) (s : HandlerState) (hL : L.Nodup) (f : Nat)
    (hf : f ∈ L) :
    (L.foldl commit_flow_step s).trafficFlowCosts f = s.proposedTrafficFlowCosts f
    ∧ (L.foldl commit_flow_step s).proposedTrafficFlowCosts f
        = ⟨INVALID_NOC_COST_TERM, INVALID_NOC_COST_TERM, INVALID_NOC_COST_TERM⟩ := by
  induction L generalizing s with
  | nil => cases hf
  | cons a L ih =>
    simp only [List.foldl_cons]
    rcases List.mem_cons.mp hf with rfl | hfL
    · have hfL : f ∉ L := (List.nodup_cons.mp hL).1
      obtain ⟨h1, h2⟩ := commit_flow_fold_frame_not_mem L (commit_flow_step s f) f hfL
      rw [h1, h2]
      constructor <;> simp [commit_flow_step]
    · have hfa : f ≠ a := fun h => (List.nodup_cons.mp hL).1 (h ▸ hfL)
      obtain ⟨h1, h2⟩ := ih (commit_flow_step s a) (List.nodup_cons.mp hL).2 hfL
      rw [h1, h2]
      refine ⟨?_, rfl⟩
      simp [commit_flow_step, Function.update_noteq hfa]

/-- A link id of a duplicate-free committed list has its proposed congestion
cost committed and its proposed slot reset to the sentinel by the per-link
commit loop. -/
lemma commit_link_fold_mem (L : List Nat) (s : HandlerState) (hL : L.Nodup) (l : Nat)
    (hl : l ∈ L) :
    (L.foldl commit_link_step s).linkCongestionCosts l = s.proposedLinkCongestionCosts l
    ∧ (L.foldl commit_link_step s).proposedLinkCongestionCosts l
        = INVALID_NOC_COST_TERM := by
  induction L generalizing s with
  | nil => cases hl
  | cons a L ih =>
    simp only [List.foldl_cons]
    rcases List.mem_cons.mp hl with rfl | hlL
    · have hlL : l ∉ L := (List.nodup_cons.mp hL).1
      obtain ⟨h1, h2⟩ := commit_link_fold_frame_not_mem L (commit_link_step s l) l hlL
      rw [h1, h2]
      constructor <;> simp [commit_link_step]
    · have hla : l ≠ a := fun h => (List.nodup_cons.mp hL).1 (h ▸ hlL)
      obtain ⟨h1, h2⟩ := ih (commit_link_step s a) (List.nodup_cons.mp hL).2 hlL
      rw [h1, h2]
      refine ⟨?_, rfl⟩
      simp [commit_link_step, Function.update_noteq hla]

/-- C10: `commit_noc_costs` writes only the committed and proposed cost caches:
the committed routes, the backup routes and the link bandwidth-usage table are
unchanged, and every flow (resp. link) outside `affected_traffic_flows` (resp.
`affected_noc_links`) keeps both of its cost-cache entries. -/
theorem commit_noc_costs_frame (s : HandlerState) :
    (commit_noc_costs s).trafficFlowRoutes = s.trafficFlowRoutes
    ∧ (commit_noc_costs s).trafficFlowRoutesBackup = s.trafficFlowRoutesBackup
    ∧ (commit_noc_costs s).linkBandwidthUsages = s.linkBandwidthUsages
    ∧ (∀ f, f ∉ s.affectedTrafficFlows →
        (commit_noc_costs s).trafficFlowCosts f = s.trafficFlowCosts f
        ∧ (commit_noc_costs s).proposedTrafficFlowCosts f = s.proposedTrafficFlowCosts f)
    ∧ (∀ l, l ∉ s.affectedNocLinks →
        (commit_noc_costs s).linkCongestionCosts l = s.linkCongestionCosts l
        ∧ (commit_noc_costs s).proposedLinkCongestionCosts l
            = s.proposedLinkCongestionCosts l) := by
  have hflow := commit_flow_fold_preserves s.affectedTrafficFlows s
  set s1 := s.affectedTrafficFlows.foldl commit_flow_step s with hs1
  have hlink := commit_link_fold_preserves s1.affectedNocLinks s1
  have hcommit : commit_noc_costs s = s1.affectedNocLinks.foldl commit_link_step s1 := rfl
  refine ⟨?_, ?_, ?_, ?_, ?_⟩
  · rw [hcommit, hlink.1, hflow.1]
  · rw [hcommit, hlink.2.1, hflow.2.1]
  · rw [hcommit, hlink.2.2.1, hflow.2.2.1]
  · intro f hf
    obtain ⟨h1, h2⟩ := commit_flow_fold_frame_not_mem s.affectedTrafficFlows s f hf
    rw [hcommit, hlink.2.2.2.1, hlink.2.2.2.2.1]
    exact ⟨h1, h2⟩
  · intro l hl
    have hlinks1 : s1.affectedNocLinks = s.affectedNocLinks := hflow.2.2.2.2.2.2
    obtain ⟨h1, h2⟩ :=
      commit_link_fold_frame_not_mem s1.affectedNocLinks s1 l (hlinks1 ▸ hl)
    rw [hcommit, h1, h2, hflow.2.2.2.1, hflow.2.2.2.2.1]
    exact ⟨rfl, rfl⟩

/-- A concrete handler state with one affected flow and one affected link, used
by witnesses and the commit counterexample. -/
def commitSampleState : HandlerState :=
  { trafficFlowRoutes := fun _ => []
    trafficFlowRoutesBackup := fun _ => []
    linkBandwidthUsages := fun _ => 0
    trafficFlowCosts := fun _ => ⟨0, 0, 0⟩
    proposedTrafficFlowCosts := fun _ => ⟨2, 3, 4⟩
    linkCongestionCosts := fun _ => 0
    proposedLinkCongestionCosts := fun _ => 5
    affectedTrafficFlows := [0]
    affectedNocLinks := [0] }

/-- Witness for C10 at a concrete state, with the untouched flow and link `1`. -/
theorem commit_noc_costs_frame_witness :
    (commit_noc_costs commitSampleState).trafficFlowRoutes
        = commitSampleState.trafficFlowRoutes
    ∧ (commit_noc_costs commitSampleState).trafficFlowCosts 1
        = commitSampleState.trafficFlowCosts 1
    ∧ (commit_noc_costs commitSampleState).proposedLinkCongestionCosts 1
        = commitSampleState.proposedLinkCongestionCosts 1 :=
  ⟨(commit_noc_costs_frame commitSampleState).1,
   ((commit_noc_costs_frame commitSampleState).2.2.2.1 1 (by decide)).1,
   ((commit_noc_costs_frame commitSampleState).2.2.2.2 1 (by decide)).2⟩

/-- Counterexample to C3 as stated: `commit_noc_costs` does not clear the
scratch sets; at a concrete state with `affected_traffic_flows = [0]` and
`affected_noc_links = [0]` both survive the commit unchanged (they are cleared
only at the start of the next
`find_affected_noc_routers_and_update_noc_costs`). -/
theorem commit_noc_costs_leaves_scratch_nonempty :
    (commit_noc_costs commitSampleState).affectedTrafficFlows = [0]
    ∧ (commit_noc_costs commitSampleState).affectedNocLinks = [0]
    ∧ (([0] : List Nat) = [] → False) := by
  refine ⟨rfl, rfl, by decide⟩

/-- C3 as amended: after `commit_noc_costs`, for every affected flow the
committed per-flow cost equals the (pre-commit) proposed per-flow cost and the
proposed slot is reset to the invalid sentinel; likewise per affected link for
the congestion caches; the scratch sets are NOT cleared by commit — they are
left unchanged, and are cleared at the start of the next
`find_affected_noc_routers_and_update_noc_costs`. -/
theorem commit_noc_costs_commits_and_leaves_scratch (s : HandlerState)
    (hf : s.affectedTrafficFlows.Nodup) (hl : s.affectedNocLinks.Nodup) :
    (∀ f ∈ s.affectedTrafficFlows,
      (commit_noc_costs s).trafficFlowCosts f = s.proposedTrafficFlowCosts f
      ∧ (commit_noc_costs s).proposedTrafficFlowCosts f
          = ⟨INVALID_NOC_COST_TERM, INVALID_NOC_COST_TERM, INVALID_NOC_COST_TERM⟩)
    ∧ (∀ l ∈ s.affectedNocLinks,
      (commit_noc_costs s).linkCongestionCosts l = s.proposedLinkCongestionCosts l
      ∧ (commit_noc_costs s).proposedLinkCongestionCosts l = INVALID_NOC_COST_TERM)
    ∧ (commit_noc_costs s).affectedTrafficFlows = s.affectedTrafficFlows
    ∧ (commit_noc_costs s).affectedNocLinks = s.affectedNocLinks
    ∧ (∀ ctx nocModel,
      (find_affected_noc_routers_and_update_noc_costs ctx nocModel []
          (commit_noc_costs s)).1.affectedTrafficFlows = []
      ∧ (find_affected_noc_routers_and_update_noc_costs ctx nocModel []
          (commit_noc_costs s)).1.affectedNocLinks = []) := by
  have hflow := commit_flow_fold_preserves s.affectedTrafficFlows s
  set s1 := s.affectedTrafficFlows.foldl commit_flow_step s with hs1
  have hlink := commit_link_fold_preserves s1.affectedNocLinks s1
  have hcommit : commit_noc_costs s = s1.affectedNocLinks.foldl commit_link_step s1 := rfl
  have hlinks1 : s1.affectedNocLinks = s.affectedNocLinks := hflow.2.2.2.2.2.2
  refine ⟨?_, ?_, ?_, ?_, ?_⟩
  · intro f hfmem
    obtain ⟨h1, h2⟩ := commit_flow_fold_mem s.affectedTrafficFlows s hf f hfmem
    rw [hcommit, hlink.2.2.2.1, hlink.2.2.2.2.1]
    exact ⟨h1, h2⟩
  · intro l hlmem
    obtain ⟨h1, h2⟩ :=
      commit_link_fold_mem s1.affectedNocLinks s1 (hlinks1 ▸ hl) l (hlinks1 ▸ hlmem)
    rw [hcommit, h1, h2, hflow.2.2.2.2.1]
    exact ⟨rfl, rfl⟩
  · rw [hcommit, hlink.2.2.2.2.2.1, hflow.2.2.2.2.2.1]
  · rw [hcommit, hlink.2.2.2.2.2.2, hlinks1]
  · intro ctx nocModel
    constructor <;> rfl

/-- Witness for the amended C3 at a concrete state. -/
theorem commit_noc_costs_commits_and_leaves_scratch_witness :
    (commit_noc_costs commitSampleState).trafficFlowCosts 0
        = commitSampleState.proposedTrafficFlowCosts 0
    ∧ (commit_noc_costs commitSampleState).proposedLinkCongestionCosts 0
        = INVALID_NOC_COST_TERM
    ∧ (commit_noc_costs commitSampleState).affectedTrafficFlows
        = commitSampleState.affectedTrafficFlows :=
  ⟨((commit_noc_costs_commits_and_leaves_scratch commitSampleState (by decide)
      (by decide)).1 0 (by decide)).1,
   ((commit_noc_costs_commits_and_leaves_scratch commitSampleState (by decide)
      (by decide)).2.1 0 (by decide)).2,
   (commit_noc_costs_commits_and_leaves_scratch commitSampleState (by decide)
      (by decide)).2.2.1⟩

/-- Pointwise characterisation of `update_traffic_flow_link_usage`: the usage
of link `k` grows by `inc_or_dec * bandwidth` once per occurrence of `k` in the
route. -/
lemma update_traffic_flow_link_usage_apply (route : List Nat) (incOrDec bw : ℚ)
    (u : Nat → ℚ) (k : Nat) :
    update_traffic_flow_link_usage route incOrDec bw u k
      = u k + incOrDec * bw * (route.count k : ℚ) := by
  induction route generalizing u with
  | nil => simp [update_traffic_flow_link_usage]
  | cons l rs ih =>
    simp only [update_traffic_flow_link_usage, List.foldl_cons] at ih ⊢
    rw [ih]
    by_cases hk : k = l
    · subst hk
      rw [Function.update_same]
      simp only [List.count_cons, beq_self_eq_true, if_true]
      push_cast
      ring
    · rw [Function.update_noteq hk]
      have hlk : (l == k) = false := beq_eq_false_iff_ne.mpr (Ne.symm hk)
      simp [List.count_cons, hlk]

/-- The initial-routing fold only writes the committed routes and the
bandwidth-usage table. -/
lemma initial_fold_preserves (ctx : NocContext) (nr : List (List Nat)) (ids : List Nat)
    (s : HandlerState) :
    (ids.foldl (initial_routing_step ctx nr) s).trafficFlowRoutesBackup
        = s.trafficFlowRoutesBackup
    ∧ (ids.foldl (initial_routing_step ctx nr) s).trafficFlowCosts = s.trafficFlowCosts
    ∧ (ids.foldl (initial_routing_step ctx nr) s).proposedTrafficFlowCosts
        = s.proposedTrafficFlowCosts
    ∧ (ids.foldl (initial_routing_step ctx nr) s).linkCongestionCosts
        = s.linkCongestionCosts
    ∧ (ids.foldl (initial_routing_step ctx nr) s).proposedLinkCongestionCosts
        = s.proposedLinkCongestionCosts
    ∧ (ids.foldl (initial_routing_step ctx nr) s).affectedTrafficFlows
        = s.affectedTrafficFlows
    ∧ (ids.foldl (initial_routing_step ctx nr) s).affectedNocLinks = s.affectedNocLinks := by
  induction ids generalizing s with
  | nil => exact ⟨rfl, rfl, rfl, rfl, rfl, rfl, rfl⟩
  | cons a rs ih =>
    simpa only [List.foldl_cons, initial_routing_step] using ih (initial_routing_step ctx nr s a)

/-- After the initial-routing fold the usage of link `k` is its starting value
plus, per flow, the flow bandwidth times the occurrences of `k` in the adopted
route. -/
lemma initial_fold_usage (ctx : NocContext) (nr : List (List Nat)) (ids : List Nat)
    (s : HandlerState) (k : Nat) :
    (ids.foldl (initial_routing_step ctx nr) s).linkBandwidthUsages k
      = s.linkBandwidthUsages k
        + ((ids.map fun fid =>
            (ctx.flows fid).bandwidth * ((adopted_route ctx nr fid).count k : ℚ))).sum := by
  induction ids generalizing s with
  | nil => simp
  | cons a rs ih =>
    simp only [List.foldl_cons, List.map_cons, List.sum_cons]
    rw [ih]
    have hstep : (initial_routing_step ctx nr s a).linkBandwidthUsages k
        = s.linkBandwidthUsages k
          + (ctx.flows a).bandwidth * ((adopted_route ctx nr a).count k : ℚ) := by
      simp only [initial_routing_step]
      rw [update_traffic_flow_link_usage_apply]
      ring
    rw [hstep]
    ring

/-- A flow id outside the routed list keeps its committed route across the
initial-routing fold. -/
lemma initial_fold_routes_not_mem (ctx : NocContext) (nr : List (List Nat))
    (ids : List Nat) (s : HandlerState) (f : Nat) (hf : f ∉ ids) :
    (ids.foldl (initial_routing_step ctx nr) s).trafficFlowRoutes f
      = s.trafficFlowRoutes f := by
  induction ids generalizing s with
  | nil => rfl
  | cons a rs ih =>
    have hfa : f ≠ a := fun h => hf (h ▸ List.mem_cons_self a rs)
    have hfr : f ∉ rs := fun h => hf (List.mem_cons_of_mem a h)
    simp only [List.foldl_cons]
    rw [ih _ hfr]
    simp [initial_routing_step, Function.update_noteq hfa]

/-- Every routed flow ends the initial-routing fold with its adopted route in
the committed slot. -/
lemma initial_fold_routes_mem (ctx : NocContext) (nr : List (List Nat)) (ids : List Nat)
    (s : HandlerState) (f : Nat) (hf : f ∈ ids) :
    (ids.foldl (initial_routing_step ctx nr) s).trafficFlowRoutes f
      = adopted_route ctx nr f := by
  induction ids generalizing s with
  | nil => cases hf
  | cons a rs ih =>
    simp only [List.foldl_cons]
    by_cases hfr : f ∈ rs
    · exact ih _ hfr
    · have hfa : f = a := by
        rcases List.mem_cons.mp hf with h | h
        · exact h
        · exact absurd h hfr
      subst hfa
      rw [initial_fold_routes_not_mem ctx nr rs _ f hfr]
      simp [initial_routing_step]

/-- The aggregate-bandwidth fold only writes the committed per-flow cost cache. -/
lemma comp_aggregate_fold_preserves (ctx : NocContext) (ids : List Nat)
    (sc : HandlerState × ℚ) :
    (ids.foldl (comp_aggregate_step ctx) sc).1.trafficFlowRoutes = sc.1.trafficFlowRoutes
    ∧ (ids.foldl (comp_aggregate_step ctx) sc).1.trafficFlowRoutesBackup
        = sc.1.trafficFlowRoutesBackup
    ∧ (ids.foldl (comp_aggregate_step ctx) sc).1.linkBandwidthUsages
        = sc.1.linkBandwidthUsages
    ∧ (ids.foldl (comp_aggregate_step ctx) sc).1.proposedTrafficFlowCosts
        = sc.1.proposedTrafficFlowCosts
    ∧ (ids.foldl (comp_aggregate_step ctx) sc).1.linkCongestionCosts
        = sc.1.linkCongestionCosts
    ∧ (ids.foldl (comp_aggregate_step ctx) sc).1.proposedLinkCongestionCosts
        = sc.1.proposedLinkCongestionCosts
    ∧ (ids.foldl (comp_aggregate_step ctx) sc).1.affectedTrafficFlows
        = sc.1.affectedTrafficFlows
    ∧ (ids.foldl (comp_aggregate_step ctx) sc).1.affectedNocLinks
        = sc.1.affectedNocLinks := by
  induction ids generalizing sc with
  | nil => exact ⟨rfl, rfl, rfl, rfl, rfl, rfl, rfl, rfl⟩
  | cons a rs ih =>
    simpa only [List.foldl_cons, comp_aggregate_step] using ih (comp_aggregate_step ctx sc a)

/-- The aggregate-bandwidth fold accumulates the kernel over the (unchanged)
committed routes. -/
lemma comp_aggregate_fold_total (ctx : NocContext) (ids : List Nat)
    (sc : HandlerState × ℚ) :
    (ids.foldl (comp_aggregate_step ctx) sc).2
      = sc.2 + ((ids.map fun fid =>
          calculate_traffic_flow_aggregate_bandwidth_cost (sc.1.trafficFlowRoutes fid)
            (ctx.flows fid))).sum := by
  induction ids generalizing sc with
  | nil => simp
  | cons a rs ih =>
    simp only [List.foldl_cons, List.map_cons, List.sum_cons]
    rw [ih]
    have hroutes : (comp_aggregate_step ctx sc a).1.trafficFlowRoutes
        = sc.1.trafficFlowRoutes := rfl
    have h2 : (comp_aggregate_step ctx sc a).2
        = sc.2 + calculate_traffic_flow_aggregate_bandwidth_cost
            (sc.1.trafficFlowRoutes a) (ctx.flows a) := rfl
    rw [hroutes, h2]
    ring

/-- A flow id outside the list keeps its committed cost entry across the
aggregate-bandwidth fold. -/
lemma comp_aggregate_fold_cache_not_mem (ctx : NocContext) (ids : List Nat)
    (sc : HandlerState × ℚ) (f : Nat) (hf : f ∉ ids) :
    (ids.foldl (comp_aggregate_step ctx) sc).1.trafficFlowCosts f
      = sc.1.trafficFlowCosts f := by
  induction ids generalizing sc with
  | nil => rfl
  | cons a rs ih =>
    have hfa : f ≠ a := fun h => hf (h ▸ List.mem_cons_self a rs)
    have hfr : f ∉ rs := fun h => hf (List.mem_cons_of_mem a h)
    simp only [List.foldl_cons]
    rw [ih _ hfr]
    simp [comp_aggregate_step, Function.update_noteq hfa]

/-- Every listed flow (duplicate-free list) ends the aggregate-bandwidth fold
with the kernel value cached in the aggregate-bandwidth field of its committed
cost entry. -/
lemma comp_aggregate_fold_cache_mem (ctx : NocContext) (ids : List Nat)
    (sc : HandlerState × ℚ) (hids : ids.Nodup) (f : Nat) (hf : f ∈ ids) :
    (ids.foldl (comp_aggregate_step ctx) sc).1.trafficFlowCosts f
      = { sc.1.trafficFlowCosts f with
          aggregateBandwidth :=
            calculate_traffic_flow_aggregate_bandwidth_cost (sc.1.trafficFlowRoutes f)
              (ctx.flows f) } := by
  induction ids generalizing sc with
  | nil => cases hf
  | cons a rs ih =>
    simp only [List.foldl_cons]
    rcases List.mem_cons.mp hf with rfl | hfr
    · have hfr : f ∉ rs := (List.nodup_cons.mp hids).1
      rw [comp_aggregate_fold_cache_not_mem ctx rs _ f hfr]
      simp [comp_aggregate_step]
    · have hfa : f ≠ a := fun h => (List.nodup_cons.mp hids).1 (h ▸ hfr)
      rw [ih (comp_aggregate_step ctx sc a) (List.nodup_cons.mp hids).2 hfr]
      simp [comp_aggregate_step, Function.update_noteq hfa]

/-- The latency fold only writes the committed per-flow cost cache. -/
lemma comp_latency_fold_preserves (ctx : NocContext) (nocModel : NocModel)
    (ids : List Nat) (sc : HandlerState × ℚ × ℚ) :
    (ids.foldl (comp_latency_step ctx nocModel) sc).1.trafficFlowRoutes
        = sc.1.trafficFlowRoutes
    ∧ (ids.foldl (comp_latency_step ctx nocModel) sc).1.trafficFlowRoutesBackup
        = sc.1.trafficFlowRoutesBackup
    ∧ (ids.foldl (comp_latency_step ctx nocModel) sc).1.linkBandwidthUsages
        = sc.1.linkBandwidthUsages
    ∧ (ids.foldl (comp_latency_step ctx nocModel) sc).1.proposedTrafficFlowCosts
        = sc.1.proposedTrafficFlowCosts
    ∧ (ids.foldl (comp_latency_step ctx nocModel) sc).1.linkCongestionCosts
        = sc.1.linkCongestionCosts
    ∧ (ids.foldl (comp_latency_step ctx nocModel) sc).1.proposedLinkCongestionCosts
        = sc.1.proposedLinkCongestionCosts
    ∧ (ids.foldl (comp_latency_step ctx nocModel) sc).1.affectedTrafficFlows
        = sc.1.affectedTrafficFlows
    ∧ (ids.foldl (comp_latency_step ctx nocModel) sc).1.affectedNocLinks
        = sc.1.affectedNocLinks := by
  induction ids generalizing sc with
  | nil => exact ⟨rfl, rfl, rfl, rfl, rfl, rfl, rfl, rfl⟩
  | cons a rs ih =>
    simpa only [List.foldl_cons, comp_latency_step] using ih (comp_latency_step ctx nocModel sc a)

/-- The latency fold accumulates both latency kernels over the (unchanged)
committed routes. -/
lemma comp_latency_fold_total (ctx : NocContext) (nocModel : NocModel) (ids : List Nat)
    (sc : HandlerState × ℚ × ℚ) :
    (ids.foldl (comp_latency_step ctx nocModel) sc).2.1
      = sc.2.1 + ((ids.map fun fid =>
          (calculate_traffic_flow_latency_cost (sc.1.trafficFlowRoutes fid) nocModel
            (ctx.flows fid)).1)).sum
    ∧ (ids.foldl (comp_latency_step ctx nocModel) sc).2.2
      = sc.2.2 + ((ids.map fun fid =>
          (calculate_traffic_flow_latency_cost (sc.1.trafficFlowRoutes fid) nocModel
            (ctx.flows fid)).2)).sum := by
  induction ids generalizing sc with
  | nil => constructor <;> simp
  | cons a rs ih =>
    obtain ⟨ih1, ih2⟩ := ih (comp_latency_step ctx nocModel sc a)
    simp only [List.foldl_cons, List.map_cons, List.sum_cons]
    have hroutes : (comp_latency_step ctx nocModel sc a).1.trafficFlowRoutes
        = sc.1.trafficFlowRoutes := rfl
    rw [hroutes] at ih1 ih2
    constructor
    · rw [ih1]
      have h2 : (comp_latency_step ctx nocModel sc a).2.1
          = sc.2.1 + (calculate_traffic_flow_latency_cost (sc.1.trafficFlowRoutes a)
              nocModel (ctx.flows a)).1 := rfl
      rw [h2]
      ring
    · rw [ih2]
      have h2 : (comp_latency_step ctx nocModel sc a).2.2
          = sc.2.2 + (calculate_traffic_flow_latency_cost (sc.1.trafficFlowRoutes a)
              nocModel (ctx.flows a)).2 := rfl
      rw [h2]
      ring

/-- A flow id outside the list keeps its committed cost entry across the
latency fold. -/
lemma comp_latency_fold_cache_not_mem (ctx : NocContext) (nocModel : NocModel)
    (ids : List Nat) (sc : HandlerState × ℚ × ℚ) (f : Nat) (hf : f ∉ ids) :
    (ids.foldl (comp_latency_step ctx nocModel) sc).1.trafficFlowCosts f
      = sc.1.trafficFlowCosts f := by
  induction ids generalizing sc with
  | nil => rfl
  | cons a rs ih =>
    have hfa : f ≠ a := fun h => hf (h ▸ List.mem_cons_self a rs)
    have hfr : f ∉ rs := fun h => hf (List.mem_cons_of_mem a h)
    simp only [List.foldl_cons]
    rw [ih _ hfr]
    simp [comp_latency_step, Function.update_noteq hfa]

/-- Every listed flow (duplicate-free list) ends the latency fold with both
latency kernel values cached in its committed cost entry. -/
lemma comp_latency_fold_cache_mem (ctx : NocContext) (nocModel : NocModel)
    (ids : List Nat) (sc : HandlerState × ℚ × ℚ) (hids : ids.Nodup) (f : Nat)
    (hf : f ∈ ids) :
    (ids.foldl (comp_latency_step ctx nocModel) sc).1.trafficFlowCosts f
      = { sc.1.trafficFlowCosts f with
          latency :=
            (calculate_traffic_flow_latency_cost (sc.1.trafficFlowRoutes f) nocModel
              (ctx.flows f)).1
          latencyOverrun :=
            (calculate_traffic_flow_latency_cost (sc.1.trafficFlowRoutes f) nocModel
              (ctx.flows f)).2 } := by
  induction ids generalizing sc with
  | nil => cases hf
  | cons a rs ih =>
    simp only [List.foldl_cons]
    rcases List.mem_cons.mp hf with rfl | hfr
    · have hfr : f ∉ rs := (List.nodup_cons.mp hids).1
      rw [comp_latency_fold_cache_not_mem ctx nocModel rs _ f hfr]
      simp [comp_latency_step]
    · have hfa : f ≠ a := fun h => (List.nodup_cons.mp hids).1 (h ▸ hfr)
      rw [ih (comp_latency_step ctx nocModel sc a) (List.nodup_cons.mp hids).2 hfr]
      simp [comp_latency_step, Function.update_noteq hfa]

/-- The congestion fold only writes the committed per-link congestion cache. -/
lemma comp_congestion_fold_preserves (nocModel : NocModel) (ids : List Nat)
    (sc : HandlerState × ℚ) :
    (ids.foldl (comp_congestion_step nocModel) sc).1.trafficFlowRoutes
        = sc.1.trafficFlowRoutes
    ∧ (ids.foldl (comp_congestion_step nocModel) sc).1.trafficFlowRoutesBackup
        = sc.1.trafficFlowRoutesBackup
    ∧ (ids.foldl (comp_congestion_step nocModel) sc).1.linkBandwidthUsages
        = sc.1.linkBandwidthUsages
    ∧ (ids.foldl (comp_congestion_step nocModel) sc).1.trafficFlowCosts
        = sc.1.trafficFlowCosts
    ∧ (ids.foldl (comp_congestion_step nocModel) sc).1.proposedTrafficFlowCosts
        = sc.1.proposedTrafficFlowCosts
    ∧ (ids.foldl (comp_congestion_step nocModel) sc).1.proposedLinkCongestionCosts
        = sc.1.proposedLinkCongestionCosts
    ∧ (ids.foldl (comp_congestion_step nocModel) sc).1.affectedTrafficFlows
        = sc.1.affectedTrafficFlows
    ∧ (ids.foldl (comp_congestion_step nocModel) sc).1.affectedNocLinks
        = sc.1.affectedNocLinks := by
  induction ids generalizing sc with
  | nil => exact ⟨rfl, rfl, rfl, rfl, rfl, rfl, rfl, rfl⟩
  | cons a rs ih =>
    simpa only [List.foldl_cons, comp_congestion_step] using ih (comp_congestion_step nocModel sc a)

/-- The congestion fold accumulates the congestion kernel over the (unchanged)
bandwidth usage. -/
lemma comp_congestion_fold_total (nocModel : NocModel) (ids : List Nat)
    (sc : HandlerState × ℚ) :
    (ids.foldl (comp_congestion_step nocModel) sc).2
      = sc.2 + ((ids.map fun linkId =>
          get_link_congestion_cost nocModel sc.1.linkBandwidthUsages linkId)).sum := by
  induction ids generalizing sc with
  | nil => simp
  | cons a rs ih =>
    simp only [List.foldl_cons, List.map_cons, List.sum_cons]
    rw [ih]
    have husage : (comp_congestion_step nocModel sc a).1.linkBandwidthUsages
        = sc.1.linkBandwidthUsages := rfl
    have h2 : (comp_congestion_step nocModel sc a).2
        = sc.2 + get_link_congestion_cost nocModel sc.1.linkBandwidthUsages a := rfl
    rw [husage, h2]
    ring

/-- A link id outside the list keeps its committed congestion entry across the
congestion fold. -/
lemma comp_congestion_fold_cache_not_mem (nocModel : NocModel) (ids : List Nat)
    (sc : HandlerState × ℚ) (l : Nat) (hl : l ∉ ids) :
    (ids.foldl (comp_congestion_step nocModel) sc).1.linkCongestionCosts l
      = sc.1.linkCongestionCosts l := by
  induction ids generalizing sc with
  | nil => rfl
  | cons a rs ih =>
    have hla : l ≠ a := fun h => hl (h ▸ List.mem_cons_self a rs)
    have hlr : l ∉ rs := fun h => hl (List.mem_cons_of_mem a h)
    simp only [List.foldl_cons]
    rw [ih _ hlr]
    simp [comp_congestion_step, Function.update_noteq hla]

/-- Every listed link (duplicate-free list) ends the congestion fold with the
congestion kernel value cached in its committed congestion entry. -/
lemma comp_congestion_fold_cache_mem (nocModel : NocModel) (ids : List Nat)
    (sc : HandlerState × ℚ) (hids : ids.Nodup) (l : Nat) (hl : l ∈ ids) :
    (ids.foldl (comp_congestion_step nocModel) sc).1.linkCongestionCosts l
      = get_link_congestion_cost nocModel sc.1.linkBandwidthUsages l := by
  induction ids generalizing sc with
  | nil => cases hl
  | cons a rs ih =>
    simp only [List.foldl_cons]
    rcases List.mem_cons.mp hl with rfl | hlr
    · have hlr : l ∉ rs := (List.nodup_cons.mp hids).1
      rw [comp_congestion_fold_cache_not_mem nocModel rs _ l hlr]
      simp [comp_congestion_step]
    · have hla : l ≠ a := fun h => (List.nodup_cons.mp hids).1 (h ▸ hlr)
      rw [ih (comp_congestion_step nocModel sc a) (List.nodup_cons.mp hids).2 hlr]
      simp [comp_congestion_step, Function.update_noteq hla]

/-- A context with no traffic flows, used by the C2 counterexample (with zero
flows `initial_noc_routing` performs no iteration at all). -/
def sampleEmptyCtx : NocContext :=
  { flows := fun _ => sampleFlow
    assocFlows := fun _ => []
    hasFlows := fun _ => false
    trafficFlowIds := []
    newRoute := fun _ => [] }

/-- A handler state whose bandwidth-usage table is non-zero everywhere. -/
def dirtyUsageState : HandlerState :=
  { commitSampleState with linkBandwidthUsages := fun _ => 5 }

/-- Counterexample to C2 as stated: `initial_noc_routing` does not zero the
link bandwidth usage (and computes no costs) -- on a state with usage `5` and no
traffic flows it returns usage `5`, not `0`; the zeroing and the cost
computation live in `reinitialize_noc_routing`. -/
theorem initial_noc_routing_does_not_zero_usage :
    (initial_noc_routing sampleEmptyCtx [] dirtyUsageState).linkBandwidthUsages 0 = 5
    ∧ (5 : ℚ) ≠ 0 := by
  refine ⟨rfl, by norm_num⟩

/-- C2 as amended, about `reinitialize_noc_routing` (the function of the source
that performs the zero-then-route-then-cost sequence; `initial_noc_routing`
itself only routes and increments): it first zeroes all link bandwidth usage,
then for each flow adopts the seed route if seed routes are provided or else
the routing collaborator's route, increments usage on every link of each
adopted route by the flow's bandwidth, computes and caches all per-flow and
per-link committed costs, and returns the four aggregate cost terms. -/
theorem reinitialize_noc_routing_zeroes_routes_and_computes_costs
    (ctx : NocContext) (nocModel : NocModel) (newRoutes : List (List Nat))
    (s : HandlerState) (hids : ctx.trafficFlowIds.Nodup)
    (hlinks : nocModel.linkIds.Nodup) :
    (∀ k, (reinitialize_noc_routing ctx nocModel newRoutes s).1.linkBandwidthUsages k
        = ((ctx.trafficFlowIds.map fun fid =>
            (ctx.flows fid).bandwidth
              * ((adopted_route ctx newRoutes fid).count k : ℚ))).sum)
    ∧ (∀ fid ∈ ctx.trafficFlowIds,
        (reinitialize_noc_routing ctx nocModel newRoutes s).1.trafficFlowRoutes fid
          = adopted_route ctx newRoutes fid)
    ∧ (∀ fid ∈ ctx.trafficFlowIds,
        (reinitialize_noc_routing ctx nocModel newRoutes s).1.trafficFlowCosts fid
          = ⟨calculate_traffic_flow_aggregate_bandwidth_cost
                (adopted_route ctx newRoutes fid) (ctx.flows fid),
              (calculate_traffic_flow_latency_cost (adopted_route ctx newRoutes fid)
                nocModel (ctx.flows fid)).1,
              (calculate_traffic_flow_latency_cost (adopted_route ctx newRoutes fid)
                nocModel (ctx.flows fid)).2⟩)
    ∧ (∀ l ∈ nocModel.linkIds,
        (reinitialize_noc_routing ctx nocModel newRoutes s).1.linkCongestionCosts l
          = get_link_congestion_cost nocModel
              (reinitialize_noc_routing ctx nocModel newRoutes s).1.linkBandwidthUsages l)
    ∧ (reinitialize_noc_routing ctx nocModel newRoutes s).2
        = ⟨((ctx.trafficFlowIds.map fun fid =>
              calculate_traffic_flow_aggregate_bandwidth_cost
                (adopted_route ctx newRoutes fid) (ctx.flows fid))).sum,
            ((ctx.trafficFlowIds.map fun fid =>
              (calculate_traffic_flow_latency_cost (adopted_route ctx newRoutes fid)
                nocModel (ctx.flows fid)).1)).sum,
            ((ctx.trafficFlowIds.map fun fid =>
              (calculate_traffic_flow_latency_cost (adopted_route ctx newRoutes fid)
                nocModel (ctx.flows fid)).2)).sum,
            ((nocModel.linkIds.map fun linkId =>
              get_link_congestion_cost nocModel
                (reinitialize_noc_routing ctx nocModel newRoutes s).1.linkBandwidthUsages
                linkId)).sum⟩ := by
  set zeroed : HandlerState := { s with linkBandwidthUsages := fun _ => 0 } with hzeroedDef
  set routed : HandlerState := initial_noc_routing ctx newRoutes zeroed with hroutedDef
  set aggSC : HandlerState × ℚ := comp_noc_aggregate_bandwidth_cost ctx routed with haggDef
  set latSC : HandlerState × ℚ × ℚ := comp_noc_latency_cost ctx nocModel aggSC.1 with hlatDef
  set congSC : HandlerState × ℚ := comp_noc_congestion_cost nocModel latSC.1 with hcongDef
  have hres : reinitialize_noc_routing ctx nocModel newRoutes s
      = (congSC.1, ⟨aggSC.2, latSC.2.1, latSC.2.2, congSC.2⟩) := rfl
  -- the committed routes after the initial fold
  have hRoutedRoutes : ∀ fid ∈ ctx.trafficFlowIds,
      routed.trafficFlowRoutes fid = adopted_route ctx newRoutes fid := by
    intro fid hf
    rw [hroutedDef]
    exact initial_fold_routes_mem ctx newRoutes ctx.trafficFlowIds zeroed fid hf
  -- the bandwidth usage after the initial fold, built from zero
  have hRoutedUsage : ∀ k, routed.linkBandwidthUsages k
      = ((ctx.trafficFlowIds.map fun fid =>
          (ctx.flows fid).bandwidth
            * ((adopted_route ctx newRoutes fid).count k : ℚ))).sum := by
    intro k
    rw [hroutedDef]
    show (ctx.trafficFlowIds.foldl (initial_routing_step ctx newRoutes) zeroed).linkBandwidthUsages k = _
    rw [initial_fold_usage ctx newRoutes ctx.trafficFlowIds zeroed k]
    show (0 : ℚ) + _ = _
    rw [zero_add]
  -- field preservation through the three cost folds
  have haggPres := comp_aggregate_fold_preserves ctx ctx.trafficFlowIds (routed, 0)
  have hlatPres := comp_latency_fold_preserves ctx nocModel ctx.trafficFlowIds (aggSC.1, 0, 0)
  have hcongPres := comp_congestion_fold_preserves nocModel nocModel.linkIds (latSC.1, 0)
  have hAggRoutes : aggSC.1.trafficFlowRoutes = routed.trafficFlowRoutes := haggPres.1
  have hAggUsage : aggSC.1.linkBandwidthUsages = routed.linkBandwidthUsages := haggPres.2.2.1
  have hLatRoutes : latSC.1.trafficFlowRoutes = aggSC.1.trafficFlowRoutes := hlatPres.1
  have hLatUsage : latSC.1.linkBandwidthUsages = aggSC.1.linkBandwidthUsages := hlatPres.2.2.1
  have hCongRoutes : congSC.1.trafficFlowRoutes = latSC.1.trafficFlowRoutes := hcongPres.1
  have hCongUsage : congSC.1.linkBandwidthUsages = latSC.1.linkBandwidthUsages := hcongPres.2.2.1
  have hCongCosts : congSC.1.trafficFlowCosts = latSC.1.trafficFlowCosts := hcongPres.2.2.2.1
  have hFinalUsage : ∀ k, congSC.1.linkBandwidthUsages k
      = ((ctx.trafficFlowIds.map fun fid =>
          (ctx.flows fid).bandwidth
            * ((adopted_route ctx newRoutes fid).count k : ℚ))).sum := by
    intro k
    rw [hCongUsage, hLatUsage, hAggUsage, hRoutedUsage]
  refine ⟨?_, ?_, ?_, ?_, ?_⟩
  · intro k
    rw [hres]
    exact hFinalUsage k
  · intro fid hf
    rw [hres]
    show congSC.1.trafficFlowRoutes fid = _
    rw [hCongRoutes, hLatRoutes, hAggRoutes]
    exact hRoutedRoutes fid hf
  · intro fid hf
    rw [hres]
    show congSC.1.trafficFlowCosts fid = _
    rw [hCongCosts]
    have hlatmem := comp_latency_fold_cache_mem ctx nocModel ctx.trafficFlowIds
      (aggSC.1, 0, 0) hids fid hf
    have haggmem := comp_aggregate_fold_cache_mem ctx ctx.trafficFlowIds
      (routed, 0) hids fid hf
    rw [hlatDef]
    show (ctx.trafficFlowIds.foldl (comp_latency_step ctx nocModel) (aggSC.1, 0, 0)).1.trafficFlowCosts fid = _
    rw [hlatmem]
    have haggroute : aggSC.1.trafficFlowRoutes fid = adopted_route ctx newRoutes fid := by
      rw [hAggRoutes]
      exact hRoutedRoutes fid hf
    have haggcache : aggSC.1.trafficFlowCosts fid
        = { routed.trafficFlowCosts fid with
            aggregateBandwidth :=
              calculate_traffic_flow_aggregate_bandwidth_cost
                (routed.trafficFlowRoutes fid) (ctx.flows fid) } := by
      rw [haggDef]
      exact haggmem
    rw [haggroute, haggcache, hRoutedRoutes fid hf]
  · intro l hl
    rw [hres]
    show congSC.1.linkCongestionCosts l = _
    have hcongmem := comp_congestion_fold_cache_mem nocModel nocModel.linkIds
      (latSC.1, 0) hlinks l hl
    rw [hcongDef]
    show (nocModel.linkIds.foldl (comp_congestion_step nocModel) (latSC.1, 0)).1.linkCongestionCosts l = _
    rw [hcongmem]
    show get_link_congestion_cost nocModel latSC.1.linkBandwidthUsages l = _
    have : congSC.1.linkBandwidthUsages = latSC.1.linkBandwidthUsages := hCongUsage
    rw [this]
  · rw [hres]
    show (⟨aggSC.2, latSC.2.1, latSC.2.2, congSC.2⟩ : NocCostTerms) = _
    have haggTotal : aggSC.2
        = ((ctx.trafficFlowIds.map fun fid =>
            calculate_traffic_flow_aggregate_bandwidth_cost
              (adopted_route ctx newRoutes fid) (ctx.flows fid))).sum := by
      rw [haggDef]
      show (ctx.trafficFlowIds.foldl (comp_aggregate_step ctx) (routed, 0)).2 = _
      rw [comp_aggregate_fold_total ctx ctx.trafficFlowIds (routed, 0)]
      rw [zero_add]
      refine congrArg List.sum (List.map_congr_left ?_)
      intro fid hf
      rw [hRoutedRoutes fid hf]
    have hlatTotal := comp_latency_fold_total ctx nocModel ctx.trafficFlowIds (aggSC.1, 0, 0)
    have hlat1 : latSC.2.1
        = ((ctx.trafficFlowIds.map fun fid =>
            (calculate_traffic_flow_latency_cost (adopted_route ctx newRoutes fid)
              nocModel (ctx.flows fid)).1)).sum := by
      rw [hlatDef]
      show (ctx.trafficFlowIds.foldl (comp_latency_step ctx nocModel) (aggSC.1, 0, 0)).2.1 = _
      rw [hlatTotal.1]
      show (0 : ℚ) + _ = _
      rw [zero_add]
      refine congrArg List.sum (List.map_congr_left ?_)
      intro fid hf
      rw [hAggRoutes, hRoutedRoutes fid hf]
    have hlat2 : latSC.2.2
        = ((ctx.trafficFlowIds.map fun fid =>
            (calculate_traffic_flow_latency_cost (adopted_route ctx newRoutes fid)
              nocModel (ctx.flows fid)).2)).sum := by
      rw [hlatDef]
      show (ctx.trafficFlowIds.foldl (comp_latency_step ctx nocModel) (aggSC.1, 0, 0)).2.2 = _
      rw [hlatTotal.2]
      show (0 : ℚ) + _ = _
      rw [zero_add]
      refine congrArg List.sum (List.map_congr_left ?_)
      intro fid hf
      rw [hAggRoutes, hRoutedRoutes fid hf]
    have hcongTotal : congSC.2
        = ((nocModel.linkIds.map fun linkId =>
            get_link_congestion_cost nocModel congSC.1.linkBandwidthUsages linkId)).sum := by
      rw [hcongDef]
      show (nocModel.linkIds.foldl (comp_congestion_step nocModel) (latSC.1, 0)).2 = _
      rw [comp_congestion_fold_total nocModel nocModel.linkIds (latSC.1, 0)]
      rw [zero_add]
      refine congrArg List.sum (List.map_congr_left ?_)
      intro l hl
      rw [← hCongUsage]
    rw [haggTotal, hlat1, hlat2, hcongTotal]

/-- A context with one traffic flow (id 0) on one router block (id 0), used by
witnesses. -/
def sampleCtxOneFlow : NocContext :=
  { flows := fun _ => sampleFlow
    assocFlows := fun b => if b = 0 then [0] else []
    hasFlows := fun b => b == 0
    trafficFlowIds := [0]
    newRoute := fun _ => [0] }

/-- Witness for the amended C2 at a one-flow context and a dirty state. -/
theorem reinitialize_noc_routing_zeroes_routes_and_computes_costs_witness :
    (∀ k, (reinitialize_noc_routing sampleCtxOneFlow sampleCoarseModel [] dirtyUsageState).1.linkBandwidthUsages k
        = ((sampleCtxOneFlow.trafficFlowIds.map fun fid =>
            (sampleCtxOneFlow.flows fid).bandwidth
              * ((adopted_route sampleCtxOneFlow [] fid).count k : ℚ))).sum)
    ∧ (reinitialize_noc_routing sampleCtxOneFlow sampleCoarseModel [] dirtyUsageState).1.trafficFlowRoutes 0
        = adopted_route sampleCtxOneFlow [] 0 :=
  ⟨(reinitialize_noc_routing_zeroes_routes_and_computes_costs sampleCtxOneFlow
      sampleCoarseModel [] dirtyUsageState (by decide) (by decide)).1,
   (reinitialize_noc_routing_zeroes_routes_and_computes_costs sampleCtxOneFlow
      sampleCoarseModel [] dirtyUsageState (by decide) (by decide)).2.1 0 (by decide)⟩

/-- Proof device: the common traversal shape of
`find_affected_noc_routers_and_update_noc_costs` (with
`g := reroute_flow_step`) and `revert_noc_traffic_flow_routes` (with
`g := revert_flow_step`): walk the moved blocks, and for every block that is a
NoC router apply `g` to each associated flow not yet in the per-transaction
set threaded as the second component. -/
def dedup_pass (g : Nat → HandlerState → HandlerState) (ctx : NocContext)
    (movedBlocks : List Nat) (su : HandlerState × List Nat) : HandlerState × List Nat :=
  movedBlocks.foldl
    (fun su blk =>
      if ctx.hasFlows blk then
        (ctx.assocFlows blk).foldl
          (fun su trafficFlowId =>
            if trafficFlowId ∈ su.2 then su
            else (g trafficFlowId su.1, trafficFlowId :: su.2))
          su
      else su)
    su

/-- The sublist of `fs` whose elements are not in `seen`, each kept only at its
first occurrence: the flows of one associated-flow list that the deduplicated
traversal actually processes. -/
def fresh_flows (seen : List Nat) : List Nat → List Nat
  | [] => []
  | f :: fs => if f ∈ seen then fresh_flows seen fs else f :: fresh_flows (f :: seen) fs

/-- The deduplicated flow schedule of one transaction: the traffic flows the
nested moved-blocks traversal processes, in processing order, starting from
the already-seen set `seen`. -/
def flow_schedule (ctx : NocContext) : List Nat → List Nat → List Nat
  | _, [] => []
  | seen, blk :: blks =>
    if ctx.hasFlows blk then
      fresh_flows seen (ctx.assocFlows blk)
        ++ flow_schedule ctx ((fresh_flows seen (ctx.assocFlows blk)).reverse ++ seen) blks
    else flow_schedule ctx seen blks

/-- The committed-route slot after `re_route_traffic_flow` holds the
collaborator's new route (the swap into the backup slot is overwritten). -/
lemma re_route_traffic_flow_routes (ctx : NocContext) (f : Nat) (s : HandlerState) :
    (re_route_traffic_flow ctx f s).trafficFlowRoutes
      = Function.update s.trafficFlowRoutes f (ctx.newRoute f) := by
  show Function.update (Function.update s.trafficFlowRoutes f (s.trafficFlowRoutesBackup f)) f
      (ctx.newRoute f) = _
  rw [Function.update_idem]

/-- Committed-route slot written by the re-route step. -/
lemma reroute_step_routes (ctx : NocContext) (f : Nat) (s : HandlerState) :
    (reroute_flow_step ctx f s).trafficFlowRoutes
      = Function.update s.trafficFlowRoutes f (ctx.newRoute f) :=
  re_route_traffic_flow_routes ctx f s

/-- Backup-route slot written by the re-route step. -/
lemma reroute_step_backup (ctx : NocContext) (f : Nat) (s : HandlerState) :
    (reroute_flow_step ctx f s).trafficFlowRoutesBackup
      = Function.update s.trafficFlowRoutesBackup f (s.trafficFlowRoutes f) := rfl

/-- Bandwidth usage written by the re-route step: decrement along the previous
committed route, increment along the new route. -/
lemma reroute_step_usage (ctx : NocContext) (f : Nat) (s : HandlerState) :
    (reroute_flow_step ctx f s).linkBandwidthUsages
      = update_traffic_flow_link_usage (ctx.newRoute f) 1 (ctx.flows f).bandwidth
          (update_traffic_flow_link_usage (s.trafficFlowRoutes f) (-1)
            (ctx.flows f).bandwidth s.linkBandwidthUsages) := rfl

/-- Affected-flow list written by the re-route step. -/
lemma reroute_step_affFlows (ctx : NocContext) (f : Nat) (s : HandlerState) :
    (reroute_flow_step ctx f s).affectedTrafficFlows
      = s.affectedTrafficFlows ++ [f] := rfl

/-- Affected-link set written by the re-route step: the links unique to the
previous or the new route are inserted. -/
lemma reroute_step_affLinks (ctx : NocContext) (f : Nat) (s : HandlerState) :
    (reroute_flow_step ctx f s).affectedNocLinks
      = insert_new_links s.affectedNocLinks
          (find_affected_links_by_flow_reroute (s.trafficFlowRoutes f) (ctx.newRoute f)) := by
  show insert_new_links s.affectedNocLinks
      (find_affected_links_by_flow_reroute (s.trafficFlowRoutes f)
        ((re_route_traffic_flow ctx f s).trafficFlowRoutes f)) = _
  rw [re_route_traffic_flow_routes, Function.update_same]

/-- The cost caches are untouched by the re-route step. -/
lemma reroute_step_costs (ctx : NocContext) (f : Nat) (s : HandlerState) :
    (reroute_flow_step ctx f s).trafficFlowCosts = s.trafficFlowCosts
    ∧ (reroute_flow_step ctx f s).proposedTrafficFlowCosts = s.proposedTrafficFlowCosts
    ∧ (reroute_flow_step ctx f s).linkCongestionCosts = s.linkCongestionCosts
    ∧ (reroute_flow_step ctx f s).proposedLinkCongestionCosts
        = s.proposedLinkCongestionCosts :=
  ⟨rfl, rfl, rfl, rfl⟩

/-- Committed-route slot written by the revert step (backup swapped in). -/
lemma revert_step_routes (ctx : NocContext) (f : Nat) (s : HandlerState) :
    (revert_flow_step ctx f s).trafficFlowRoutes
      = Function.update s.trafficFlowRoutes f (s.trafficFlowRoutesBackup f) := rfl

/-- Backup-route slot written by the revert step (previous route swapped out). -/
lemma revert_step_backup (ctx : NocContext) (f : Nat) (s : HandlerState) :
    (revert_flow_step ctx f s).trafficFlowRoutesBackup
      = Function.update s.trafficFlowRoutesBackup f (s.trafficFlowRoutes f) := rfl

/-- Bandwidth usage written by the revert step: decrement along the current
committed route, increment along the backup route. -/
lemma revert_step_usage (ctx : NocContext) (f : Nat) (s : HandlerState) :
    (revert_flow_step ctx f s).linkBandwidthUsages
      = update_traffic_flow_link_usage (s.trafficFlowRoutesBackup f) 1
          (ctx.flows f).bandwidth
          (update_traffic_flow_link_usage (s.trafficFlowRoutes f) (-1)
            (ctx.flows f).bandwidth s.linkBandwidthUsages) := rfl

/-- The inner deduplicating fold over one associated-flow list equals a plain
fold of the step over the fresh flows, and extends the seen set by them. -/
lemma inner_dedup_fold_eq (g : Nat → HandlerState → HandlerState) (fs : List Nat) :
    ∀ (s : HandlerState) (seen : List Nat),
    fs.foldl
        (fun su trafficFlowId =>
          if trafficFlowId ∈ su.2 then su
          else (g trafficFlowId su.1, trafficFlowId :: su.2))
        (s, seen)
      = ((fresh_flows seen fs).foldl (fun s f => g f s) s,
         (fresh_flows seen fs).reverse ++ seen) := by
  induction fs with
  | nil => intro s seen; simp [fresh_flows]
  | cons f fs ih =>
    intro s seen
    simp only [List.foldl_cons]
    by_cases hf : f ∈ seen
    · rw [if_pos hf, ih s seen]
      simp [fresh_flows, hf]
    · rw [if_neg hf, ih (g f s) (f :: seen)]
      simp [fresh_flows, hf, List.foldl_cons, List.reverse_cons, List.append_assoc]

/-- The deduplicating traversal over the moved blocks equals a plain fold of
the step over the flow schedule, and extends the seen set by it. -/
lemma dedup_pass_eq_schedule (g : Nat → HandlerState → HandlerState) (ctx : NocContext)
    (movedBlocks : List Nat) :
    ∀ (s : HandlerState) (seen : List Nat),
    dedup_pass g ctx movedBlocks (s, seen)
      = ((flow_schedule ctx seen movedBlocks).foldl (fun s f => g f s) s,
         (flow_schedule ctx seen movedBlocks).reverse ++ seen) := by
  induction movedBlocks with
  | nil => intro s seen; simp [dedup_pass, flow_schedule]
  | cons blk blks ih =>
    intro s seen
    simp only [dedup_pass, List.foldl_cons]
    by_cases hb : ctx.hasFlows blk = true
    · rw [if_pos hb, inner_dedup_fold_eq g (ctx.assocFlows blk) s seen]
      show dedup_pass g ctx blks _ = _
      rw [ih _ _]
      simp [flow_schedule, hb, List.foldl_append, List.reverse_append, List.append_assoc]
    · rw [if_neg hb]
      show dedup_pass g ctx blks (s, seen) = _
      rw [ih s seen]
      simp [flow_schedule, hb]

/-- Membership in the fresh flows of one list: not yet seen and in the list. -/
lemma fresh_flows_mem (fs : List Nat) :
    ∀ (seen : List Nat) (f : Nat), f ∈ fresh_flows seen fs ↔ f ∉ seen ∧ f ∈ fs := by
  induction fs with
  | nil => intro seen f; simp [fresh_flows]
  | cons a fs ih =>
    intro seen f
    simp only [fresh_flows]
    by_cases ha : a ∈ seen
    · rw [if_pos ha, ih seen f]
      constructor
      · rintro ⟨h1, h2⟩
        exact ⟨h1, List.mem_cons_of_mem a h2⟩
      · rintro ⟨h1, h2⟩
        rcases List.mem_cons.mp h2 with rfl | h2
        · exact absurd ha h1
        · exact ⟨h1, h2⟩
    · rw [if_neg ha]
      constructor
      · intro h
        rcases List.mem_cons.mp h with rfl | h
        · exact ⟨ha, List.mem_cons_self _ _⟩
        · obtain ⟨h1, h2⟩ := (ih (a :: seen) f).mp h
          exact ⟨fun hk => h1 (List.mem_cons_of_mem a hk), List.mem_cons_of_mem a h2⟩
      · rintro ⟨h1, h2⟩
        rcases List.mem_cons.mp h2 with rfl | h2
        · exact List.mem_cons_self _ _
        · by_cases hfa : f = a
          · subst hfa
            exact List.mem_cons_self _ _
          · refine List.mem_cons_of_mem _ ((ih (a :: seen) f).mpr ⟨?_, h2⟩)
            intro hk
            rcases List.mem_cons.mp hk with h | h
            · exact hfa h
            · exact h1 h

/-- The fresh flows of one list have no duplicates. -/
lemma fresh_flows_nodup (fs : List Nat) : ∀ (seen : List Nat), (fresh_flows seen fs).Nodup := by
  induction fs with
  | nil => intro seen; simp [fresh_flows]
  | cons a fs ih =>
    intro seen
    simp only [fresh_flows]
    by_cases ha : a ∈ seen
    · rw [if_pos ha]
      exact ih seen
    · rw [if_neg ha]
      refine List.nodup_cons.mpr ⟨?_, ih (a :: seen)⟩
      intro hmem
      exact ((fresh_flows_mem fs (a :: seen) a).mp hmem).1 (List.mem_cons_self a seen)

/-- Membership in the flow schedule: not yet seen, and associated with some
moved block that is a NoC router. -/
lemma flow_schedule_mem (ctx : NocContext) (blks : List Nat) :
    ∀ (seen : List Nat) (f : Nat),
    f ∈ flow_schedule ctx seen blks
      ↔ f ∉ seen ∧ ∃ b, b ∈ blks ∧ ctx.hasFlows b = true ∧ f ∈ ctx.assocFlows b := by
  induction blks with
  | nil => intro seen f; simp [flow_schedule]
  | cons blk blks ih =>
    intro seen f
    by_cases hb : ctx.hasFlows blk = true
    · simp only [flow_schedule, if_pos hb, List.mem_append]
      constructor
      · intro h
        rcases h with h | h
        · obtain ⟨h1, h2⟩ := (fresh_flows_mem (ctx.assocFlows blk) seen f).mp h
          exact ⟨h1, blk, List.mem_cons_self _ _, hb, h2⟩
        · obtain ⟨h1, b, hbmem, hflows, hfmem⟩ := (ih _ f).mp h
          exact ⟨fun hk => h1 (List.mem_append.mpr (Or.inr hk)),
            b, List.mem_cons_of_mem _ hbmem, hflows, hfmem⟩
      · rintro ⟨h1, b, hbmem, hflows, hfmem⟩
        rcases List.mem_cons.mp hbmem with rfl | hbmem
        · exact Or.inl ((fresh_flows_mem (ctx.assocFlows b) seen f).mpr ⟨h1, hfmem⟩)
        · by_cases hfr : f ∈ fresh_flows seen (ctx.assocFlows blk)
          · exact Or.inl hfr
          · refine Or.inr ((ih _ f).mpr ⟨?_, b, hbmem, hflows, hfmem⟩)
            intro hk
            rcases List.mem_append.mp hk with h | h
            · exact hfr (List.mem_reverse.mp h)
            · exact h1 h
    · simp only [flow_schedule, if_neg hb]
      rw [ih seen f]
      constructor
      · rintro ⟨h1, b, hbmem, hflows, hfmem⟩
        exact ⟨h1, b, List.mem_cons_of_mem _ hbmem, hflows, hfmem⟩
      · rintro ⟨h1, b, hbmem, hflows, hfmem⟩
        rcases List.mem_cons.mp hbmem with rfl | hbmem
        · exact absurd hflows hb
        · exact ⟨h1, b, hbmem, hflows, hfmem⟩

/-- The flow schedule has no duplicates. -/
lemma flow_schedule_nodup (ctx : NocContext) (blks : List Nat) :
    ∀ (seen : List Nat), (flow_schedule ctx seen blks).Nodup := by
  induction blks with
  | nil => intro seen; simp [flow_schedule]
  | cons blk blks ih =>
    intro seen
    by_cases hb : ctx.hasFlows blk = true
    · simp only [flow_schedule, if_pos hb]
      refine List.Nodup.append (fresh_flows_nodup _ seen) (ih _) ?_
      intro f hf1 hf2
      exact ((flow_schedule_mem ctx blks _ f).mp hf2).1
        (List.mem_append.mpr (Or.inl (List.mem_reverse.mpr hf1)))
    · simp only [flow_schedule, if_neg hb]
      exact ih seen

/-- The revert step of one flow and the re-route step of a different flow
commute: they write disjoint route and backup slots, their bandwidth updates
are pointwise additions, and neither reads anything the other writes. -/
lemma revert_reroute_steps_comm (ctx : NocContext) {f g : Nat} (hfg : f ≠ g)
    (s : HandlerState) :
    revert_flow_step ctx f (reroute_flow_step ctx g s)
      = reroute_flow_step ctx g (revert_flow_step ctx f s) := by
  have hgf : g ≠ f := Ne.symm hfg
  have hRoutesf : (reroute_flow_step ctx g s).trafficFlowRoutes f = s.trafficFlowRoutes f := by
    rw [reroute_step_routes]
    exact Function.update_noteq hfg _ _
  have hBackupf : (reroute_flow_step ctx g s).trafficFlowRoutesBackup f
      = s.trafficFlowRoutesBackup f := by
    rw [reroute_step_backup]
    exact Function.update_noteq hfg _ _
  have hRoutesg : (revert_flow_step ctx f s).trafficFlowRoutes g = s.trafficFlowRoutes g := by
    rw [revert_step_routes]
    exact Function.update_noteq hgf _ _
  refine HandlerState.ext ?_ ?_ ?_ ?_ ?_ ?_ ?_ ?_ ?_
  · rw [revert_step_routes, reroute_step_routes, reroute_step_routes, revert_step_routes,
      hBackupf]
    exact Function.update_comm hgf _ _ _
  · rw [revert_step_backup, reroute_step_backup, reroute_step_backup, revert_step_backup,
      hRoutesf, hRoutesg]
    exact Function.update_comm hgf _ _ _
  · funext k
    rw [revert_step_usage, reroute_step_usage, reroute_step_usage, revert_step_usage,
      hRoutesf, hBackupf, hRoutesg]
    simp only [update_traffic_flow_link_usage_apply]
    ring
  · rfl
  · rfl
  · rfl
  · rfl
  · rfl
  · show (reroute_flow_step ctx g s).affectedNocLinks
        = (reroute_flow_step ctx g (revert_flow_step ctx f s)).affectedNocLinks
    rw [reroute_step_affLinks, reroute_step_affLinks, hRoutesg]
    rfl

/-- A revert step of a flow not in the list commutes past the whole re-route
fold over the list. -/
lemma revert_step_comm_reroute_fold (ctx : NocContext) (L : List Nat) :
    ∀ (f : Nat), f ∉ L → ∀ (s : HandlerState),
    revert_flow_step ctx f (L.foldl (fun s g => reroute_flow_step ctx g s) s)
      = L.foldl (fun s g => reroute_flow_step ctx g s) (revert_flow_step ctx f s) := by
  induction L with
  | nil => intro f _ s; rfl
  | cons g L ih =>
    intro f hf s
    have hfg : f ≠ g := fun h => hf (h ▸ List.mem_cons_self g L)
    have hfL : f ∉ L := fun h => hf (List.mem_cons_of_mem g h)
    simp only [List.foldl_cons]
    rw [ih f hfL (reroute_flow_step ctx g s), revert_reroute_steps_comm ctx hfg s]

/-- Reverting the same flow right after re-routing it restores the committed
route and the bandwidth usage (the decrements and increments cancel exactly). -/
lemma revert_after_reroute_same_flow (ctx : NocContext) (f : Nat) (s : HandlerState) :
    (revert_flow_step ctx f (reroute_flow_step ctx f s)).trafficFlowRoutes
        = s.trafficFlowRoutes
    ∧ (revert_flow_step ctx f (reroute_flow_step ctx f s)).linkBandwidthUsages
        = s.linkBandwidthUsages := by
  constructor
  · rw [revert_step_routes, reroute_step_routes, reroute_step_backup,
      Function.update_same, Function.update_idem]
    exact Function.update_eq_self f s.trafficFlowRoutes
  · funext k
    rw [revert_step_usage, reroute_step_usage, reroute_step_routes, reroute_step_backup,
      Function.update_same, Function.update_same]
    simp only [update_traffic_flow_link_usage_apply]
    ring

/-- Re-routing every flow of a duplicate-free schedule and then reverting every
flow of the same schedule restores the committed routes and the bandwidth
usage. -/
lemma reroute_fold_revert_fold (ctx : NocContext) (L : List Nat) :
    L.Nodup → ∀ (s : HandlerState),
    ((L.foldl (fun s f => revert_flow_step ctx f s)
        (L.foldl (fun s f => reroute_flow_step ctx f s) s)).trafficFlowRoutes
      = s.trafficFlowRoutes)
    ∧ ((L.foldl (fun s f => revert_flow_step ctx f s)
        (L.foldl (fun s f => reroute_flow_step ctx f s) s)).linkBandwidthUsages
      = s.linkBandwidthUsages) := by
  induction L with
  | nil => intro _ s; exact ⟨rfl, rfl⟩
  | cons f L ih =>
    intro hnd s
    have hfL : f ∉ L := (List.nodup_cons.mp hnd).1
    have hLnd : L.Nodup := (List.nodup_cons.mp hnd).2
    simp only [List.foldl_cons]
    rw [revert_step_comm_reroute_fold ctx L f hfL (reroute_flow_step ctx f s)]
    obtain ⟨ihr, ihu⟩ := ih hLnd (revert_flow_step ctx f (reroute_flow_step ctx f s))
    obtain ⟨hr1, hu1⟩ := revert_after_reroute_same_flow ctx f s
    exact ⟨ihr.trans hr1, ihu.trans hu1⟩

/-- The per-flow cost loop of the delta evaluation writes only the proposed
per-flow cost cache (and the delta terms): routes, backup routes, usage and
the scratch collections are preserved. -/
lemma flow_cost_fold_preserves (ctx : NocContext) (nocModel : NocModel) (L : List Nat)
    (sd : HandlerState × NocCostTerms) :
    (L.foldl (flow_cost_step ctx nocModel) sd).1.trafficFlowRoutes = sd.1.trafficFlowRoutes
    ∧ (L.foldl (flow_cost_step ctx nocModel) sd).1.trafficFlowRoutesBackup
        = sd.1.trafficFlowRoutesBackup
    ∧ (L.foldl (flow_cost_step ctx nocModel) sd).1.linkBandwidthUsages
        = sd.1.linkBandwidthUsages
    ∧ (L.foldl (flow_cost_step ctx nocModel) sd).1.affectedTrafficFlows
        = sd.1.affectedTrafficFlows
    ∧ (L.foldl (flow_cost_step ctx nocModel) sd).1.affectedNocLinks
        = sd.1.affectedNocLinks := by
  induction L generalizing sd with
  | nil => exact ⟨rfl, rfl, rfl, rfl, rfl⟩
  | cons a L ih =>
    simpa only [List.foldl_cons, flow_cost_step] using ih (flow_cost_step ctx nocModel sd a)

/-- The per-link congestion loop of the delta evaluation writes only the
proposed per-link congestion cache (and the congestion delta). -/
lemma link_cost_fold_preserves (nocModel : NocModel) (L : List Nat)
    (sd : HandlerState × NocCostTerms) :
    (L.foldl (link_cost_step nocModel) sd).1.trafficFlowRoutes = sd.1.trafficFlowRoutes
    ∧ (L.foldl (link_cost_step nocModel) sd).1.trafficFlowRoutesBackup
        = sd.1.trafficFlowRoutesBackup
    ∧ (L.foldl (link_cost_step nocModel) sd).1.linkBandwidthUsages
        = sd.1.linkBandwidthUsages
    ∧ (L.foldl (link_cost_step nocModel) sd).1.affectedTrafficFlows
        = sd.1.affectedTrafficFlows
    ∧ (L.foldl (link_cost_step nocModel) sd).1.affectedNocLinks
        = sd.1.affectedNocLinks := by
  induction L generalizing sd with
  | nil => exact ⟨rfl, rfl, rfl, rfl, rfl⟩
  | cons a L ih =>
    simpa only [List.foldl_cons, link_cost_step] using ih (link_cost_step nocModel sd a)

/-- The routes, backup routes and bandwidth usage produced by a revert fold
depend only on the starting routes, backup routes and bandwidth usage. -/
lemma revert_fold_congr (ctx : NocContext) (L : List Nat) :
    ∀ (s t : HandlerState),
    s.trafficFlowRoutes = t.trafficFlowRoutes →
    s.trafficFlowRoutesBackup = t.trafficFlowRoutesBackup →
    s.linkBandwidthUsages = t.linkBandwidthUsages →
    ((L.foldl (fun s f => revert_flow_step ctx f s) s).trafficFlowRoutes
        = (L.foldl (fun s f => revert_flow_step ctx f s) t).trafficFlowRoutes)
    ∧ ((L.foldl (fun s f => revert_flow_step ctx f s) s).trafficFlowRoutesBackup
        = (L.foldl (fun s f => revert_flow_step ctx f s) t).trafficFlowRoutesBackup)
    ∧ ((L.foldl (fun s f => revert_flow_step ctx f s) s).linkBandwidthUsages
        = (L.foldl (fun s f => revert_flow_step ctx f s) t).linkBandwidthUsages) := by
  induction L with
  | nil => intro s t h1 h2 h3; exact ⟨h1, h2, h3⟩
  | cons f L ih =>
    intro s t h1 h2 h3
    simp only [List.foldl_cons]
    refine ih _ _ ?_ ?_ ?_
    · rw [revert_step_routes, revert_step_routes, h1, h2]
    · rw [revert_step_backup, revert_step_backup, h1, h2]
    · rw [revert_step_usage, revert_step_usage, h1, h2, h3]

/-- The state left by `find_affected_noc_routers_and_update_noc_costs` agrees
with the plain re-route fold over the transaction's flow schedule on every
field the cost loops do not write: routes, backup routes, bandwidth usage and
the two scratch collections. -/
lemma find_affected_eq_phase1 (ctx : NocContext) (nocModel : NocModel)
    (movedBlocks : List Nat) (s : HandlerState) :
    (find_affected_noc_routers_and_update_noc_costs ctx nocModel movedBlocks s).1.trafficFlowRoutes
        = ((flow_schedule ctx [] movedBlocks).foldl (fun s f => reroute_flow_step ctx f s)
            { s with affectedTrafficFlows := [], affectedNocLinks := [] }).trafficFlowRoutes
    ∧ (find_affected_noc_routers_and_update_noc_costs ctx nocModel movedBlocks s).1.trafficFlowRoutesBackup
        = ((flow_schedule ctx [] movedBlocks).foldl (fun s f => reroute_flow_step ctx f s)
            { s with affectedTrafficFlows := [], affectedNocLinks := [] }).trafficFlowRoutesBackup
    ∧ (find_affected_noc_routers_and_update_noc_costs ctx nocModel movedBlocks s).1.linkBandwidthUsages
        = ((flow_schedule ctx [] movedBlocks).foldl (fun s f => reroute_flow_step ctx f s)
            { s with affectedTrafficFlows := [], affectedNocLinks := [] }).linkBandwidthUsages
    ∧ (find_affected_noc_routers_and_update_noc_costs ctx nocModel movedBlocks s).1.affectedTrafficFlows
        = ((flow_schedule ctx [] movedBlocks).foldl (fun s f => reroute_flow_step ctx f s)
            { s with affectedTrafficFlows := [], affectedNocLinks := [] }).affectedTrafficFlows
    ∧ (find_affected_noc_routers_and_update_noc_costs ctx nocModel movedBlocks s).1.affectedNocLinks
        = ((flow_schedule ctx [] movedBlocks).foldl (fun s f => reroute_flow_step ctx f s)
            { s with affectedTrafficFlows := [], affectedNocLinks := [] }).affectedNocLinks := by
  set cleared : HandlerState := { s with affectedTrafficFlows := [], affectedNocLinks := [] }
    with hclearedDef
  set P : HandlerState :=
    (flow_schedule ctx [] movedBlocks).foldl (fun s f => reroute_flow_step ctx f s) cleared
    with hPDef
  have h0 : (find_affected_noc_routers_and_update_noc_costs ctx nocModel movedBlocks s).1
      = (((dedup_pass (reroute_flow_step ctx) ctx movedBlocks
              (cleared, ([] : List Nat))).1.affectedTrafficFlows.foldl
            (flow_cost_step ctx nocModel)
            ((dedup_pass (reroute_flow_step ctx) ctx movedBlocks
              (cleared, ([] : List Nat))).1, ⟨0, 0, 0, 0⟩)).1.affectedNocLinks.foldl
          (link_cost_step nocModel)
          ((dedup_pass (reroute_flow_step ctx) ctx movedBlocks
              (cleared, ([] : List Nat))).1.affectedTrafficFlows.foldl
            (flow_cost_step ctx nocModel)
            ((dedup_pass (reroute_flow_step ctx) ctx movedBlocks
              (cleared, ([] : List Nat))).1, ⟨0, 0, 0, 0⟩))).1 := rfl
  have hsu1 : (dedup_pass (reroute_flow_step ctx) ctx movedBlocks
      (cleared, ([] : List Nat))).1 = P := by
    rw [dedup_pass_eq_schedule (reroute_flow_step ctx) ctx movedBlocks cleared [], hPDef]
  rw [h0, hsu1]
  have hfp := flow_cost_fold_preserves ctx nocModel P.affectedTrafficFlows (P, ⟨0, 0, 0, 0⟩)
  have hlp := link_cost_fold_preserves nocModel
    (P.affectedTrafficFlows.foldl (flow_cost_step ctx nocModel) (P, ⟨0, 0, 0, 0⟩)).1.affectedNocLinks
    (P.affectedTrafficFlows.foldl (flow_cost_step ctx nocModel) (P, ⟨0, 0, 0, 0⟩))
  exact ⟨hlp.1.trans hfp.1, hlp.2.1.trans hfp.2.1, hlp.2.2.1.trans hfp.2.2.1,
    hlp.2.2.2.1.trans hfp.2.2.2.1, hlp.2.2.2.2.trans hfp.2.2.2.2⟩

/-- C1: for every set of moved blocks, running the delta evaluation
(`find_affected_noc_routers_and_update_noc_costs`) and then the revert
(`revert_noc_traffic_flow_routes`) on the same moved blocks restores the link
bandwidth-usage table and every flow's committed route to exactly their values
before the evaluation: the revert's decrement along the current committed
route, increment along the backup route, and swap of the two route slots,
deduplicated over the same associated flows, undo the re-routes exactly. -/
theorem noc_evaluate_then_revert_restores (ctx : NocContext) (nocModel : NocModel)
    (movedBlocks : List Nat) (s : HandlerState) :
    (revert_noc_traffic_flow_routes ctx movedBlocks
        (find_affected_noc_routers_and_update_noc_costs ctx nocModel movedBlocks s).1).trafficFlowRoutes
      = s.trafficFlowRoutes
    ∧ (revert_noc_traffic_flow_routes ctx movedBlocks
        (find_affected_noc_routers_and_update_noc_costs ctx nocModel movedBlocks s).1).linkBandwidthUsages
      = s.linkBandwidthUsages := by
  obtain ⟨hEr, hEb, hEu, hEaf, hEal⟩ := find_affected_eq_phase1 ctx nocModel movedBlocks s
  set cleared : HandlerState := { s with affectedTrafficFlows := [], affectedNocLinks := [] }
    with hclearedDef
  set L : List Nat := flow_schedule ctx [] movedBlocks with hLDef
  set P : HandlerState := L.foldl (fun s f => reroute_flow_step ctx f s) cleared with hPDef
  set E : HandlerState :=
    (find_affected_noc_routers_and_update_noc_costs ctx nocModel movedBlocks s).1 with hEDef
  have hrevertEq : revert_noc_traffic_flow_routes ctx movedBlocks E
      = L.foldl (fun s f => revert_flow_step ctx f s) E := by
    show (dedup_pass (revert_flow_step ctx) ctx movedBlocks (E, ([] : List Nat))).1
      = L.foldl (fun s f => revert_flow_step ctx f s) E
    rw [dedup_pass_eq_schedule (revert_flow_step ctx) ctx movedBlocks E [], hLDef]
  have hnodup : L.Nodup := by
    rw [hLDef]
    exact flow_schedule_nodup ctx movedBlocks []
  obtain ⟨hc1, hc2, hc3⟩ := revert_fold_congr ctx L E P hEr hEb hEu
  obtain ⟨hr1, hr2⟩ := reroute_fold_revert_fold ctx L hnodup cleared
  constructor
  · rw [hrevertEq, hc1, hPDef]
    rw [hr1, hclearedDef]
  · rw [hrevertEq, hc3, hPDef]
    rw [hr2, hclearedDef]

/-- Inserting links one by one, skipping those already present, preserves
freedom from duplicates. -/
lemma insert_new_links_nodup (uniq : List Nat) :
    ∀ (links : List Nat), links.Nodup → (insert_new_links links uniq).Nodup := by
  induction uniq with
  | nil => intro links h; exact h
  | cons a uniq ih =>
    intro links h
    simp only [insert_new_links, List.foldl_cons]
    by_cases ha : a ∈ links
    · rw [if_pos ha]
      exact ih links h
    · rw [if_neg ha]
      refine ih _ ?_
      rw [List.nodup_append]
      refine ⟨h, List.nodup_singleton a, ?_⟩
      intro x hx hxa
      have : x = a := by simpa using hxa
      exact ha (this ▸ hx)

/-- The re-route fold appends exactly its flow schedule to the affected-flow
list. -/
lemma reroute_fold_affected_flows (ctx : NocContext) (L : List Nat) :
    ∀ (s : HandlerState),
    (L.foldl (fun s f => reroute_flow_step ctx f s) s).affectedTrafficFlows
      = s.affectedTrafficFlows ++ L := by
  induction L with
  | nil => intro s; simp
  | cons f L ih =>
    intro s
    simp only [List.foldl_cons]
    rw [ih (reroute_flow_step ctx f s), reroute_step_affFlows]
    simp

/-- The re-route fold keeps the affected-link set free of duplicates. -/
lemma reroute_fold_affected_links_nodup (ctx : NocContext) (L : List Nat) :
    ∀ (s : HandlerState), s.affectedNocLinks.Nodup →
      (L.foldl (fun s f => reroute_flow_step ctx f s) s).affectedNocLinks.Nodup := by
  induction L with
  | nil => intro s h; exact h
  | cons f L ih =>
    intro s h
    simp only [List.foldl_cons]
    refine ih _ ?_
    rw [reroute_step_affLinks]
    exact insert_new_links_nodup _ _ h

/-- C7: within a single delta-evaluation transaction every traffic-flow id
appears at most once in `affected_traffic_flows` and every link id at most
once in `affected_noc_links`; and a flow associated with any moved router
block — in particular one whose source and sink router blocks both moved — is
re-routed exactly once: it appears in `affected_traffic_flows` exactly once. -/
theorem noc_affected_sets_no_duplicates (ctx : NocContext) (nocModel : NocModel)
    (movedBlocks : List Nat) (s : HandlerState) :
    (find_affected_noc_routers_and_update_noc_costs ctx nocModel movedBlocks s).1.affectedTrafficFlows.Nodup
    ∧ (find_affected_noc_routers_and_update_noc_costs ctx nocModel movedBlocks s).1.affectedNocLinks.Nodup
    ∧ (∀ f b, b ∈ movedBlocks → ctx.hasFlows b = true → f ∈ ctx.assocFlows b →
        (find_affected_noc_routers_and_update_noc_costs ctx nocModel movedBlocks s).1.affectedTrafficFlows.count f
          = 1) := by
  obtain ⟨hEr, hEb, hEu, hEaf, hEal⟩ := find_affected_eq_phase1 ctx nocModel movedBlocks s
  set cleared : HandlerState := { s with affectedTrafficFlows := [], affectedNocLinks := [] }
    with hclearedDef
  set L : List Nat := flow_schedule ctx [] movedBlocks with hLDef
  have hnodup : L.Nodup := by
    rw [hLDef]
    exact flow_schedule_nodup ctx movedBlocks []
  have hflows : (find_affected_noc_routers_and_update_noc_costs ctx nocModel movedBlocks s).1.affectedTrafficFlows
      = L := by
    rw [hEaf, reroute_fold_affected_flows ctx L cleared]
    rw [hclearedDef]
    simp
  refine ⟨?_, ?_, ?_⟩
  · rw [hflows]
    exact hnodup
  · rw [hEal]
    refine reroute_fold_affected_links_nodup ctx L cleared ?_
    rw [hclearedDef]
    exact List.nodup_nil
  · intro f b hb hbflows hfmem
    rw [hflows]
    refine List.count_eq_one_of_mem hnodup ?_
    rw [hLDef]
    exact (flow_schedule_mem ctx movedBlocks [] f).mpr
      ⟨List.not_mem_nil f, b, hb, hbflows, hfmem⟩
